import Mathlib

/-!
Shallow embedding of the runlytics-api bulk-extraction endpoint.

Source of truth: `src/routes/scripting.js`, handler
`router.post("/strava/activities/extract-all")` (lines 40-145), helper
`getBearerToken` (lines 12-18), and the error-handling middleware of
`src/index.js` (lines 41-50).

Modelling choices:
* JS numbers coming from the request body (`rpm`, `per_page`, `start_page`,
  `max_pages`) are modelled as rationals `ℚ`; the `Number.isFinite` guards of
  the source reject `NaN`/`Infinity`, and `ℚ` models exactly the finite values.
* Timestamps (`Date.now()`) are modelled as integers (milliseconds).  The
  ambient clock is an oracle `env : Nat → Nat` giving, at the k-th clock
  observation, the (nonnegative) time elapsed since the previously known
  instant; `sleep ms` advances the clock by exactly `ms`, any extra real
  delay being absorbed by the next oracle increment.
* The upstream API is an oracle too: a list of `FetchResp` consumed one per
  request.  An exhausted list means the run is still in flight awaiting a
  response (`resp = none` in the result) — it models non-termination.
* `fs.writeFile` outcomes are an oracle `wok : Nat → Bool` indexed by the
  write-call number in the run; `false` makes the write throw, which the
  handler's `catch` turns into `next(err)` and the middleware into a generic
  HTTP 500 response (`Resp.internalError`).
* `fs.mkdir(baseDir, {recursive: true})` is idempotent directory creation
  and is not recorded as an artifact write.
-/

namespace Runlytics

/-- One opaque activity record, as returned inside the JSON array body.
The driver never inspects records beyond array-ness and emptiness. -/
abbrev Activity := String

/-- The parsed body of an upstream HTTP response: either a JSON array of
records or something else (`Array.isArray(response.data)` is false). -/
inductive Body where
  | jarr (records : List Activity)
  | notArray (raw : String)
deriving DecidableEq

/-- One upstream response as observed through axios with
`validateStatus: () => true`: either a resolved response (any status, with
the optional `retry-after` header and a parsed body) or a rejected promise
(network-level failure), which the handler's `catch` picks up. -/
inductive FetchResp where
  | ok (status : Nat) (retryAfter : Option String) (body : Body)
  | netErr
deriving DecidableEq

/-- The run manifest (`meta` object of scripting.js lines 128-134). -/
structure Meta where
  name : Option String
  per_page : ℚ
  start_page : ℚ
  fetched_pages : ℚ
  generated_at : Int
deriving DecidableEq

/-- One durable write performed by the run: a page file
(`fs.writeFile(outPath, ...)`, line 122) or the manifest
(`fs.writeFile(path.join(baseDir, "meta.json"), ...)`, line 135). -/
inductive WriteEv where
  | pageWrite (name : String) (page : ℚ) (records : List Activity)
  | metaWrite (m : Meta)
deriving DecidableEq

/-- The HTTP response the handler sends to its caller.  `internalError` is
the generic `500 {error: "Internal server error"}` produced by the error
middleware of `src/index.js` for any exception forwarded via `next(err)`. -/
inductive Resp where
  | badRequest (msg : String)
  | authError
  | upstreamError (error : String) (details : Body)
  | okRun (m : Meta)
  | internalError
deriving DecidableEq

/-- Observable outcome of one run: the HTTP response (`none` while the run
is still in flight, i.e. the scripted upstream responses ran out), the
durable writes in order, the recorded request send times, the pacer waits
and the `page` query parameter of each issued request. -/
structure RunResult where
  resp : Option Resp
  writes : List WriteEv
  sends : List Int
  waits : List Int
  requests : List ℚ
deriving DecidableEq

/-- The validated, immutable per-run configuration (scripting.js
lines 50-54, after `Number(...)`/`String(...).trim()` conversion). -/
structure Config where
  name : String
  perPage : ℚ
  startPage : ℚ
  maxPages : ℚ
  rpm : ℚ
deriving DecidableEq

/-- Mutable driver state: the JS locals `page`, `fetchedPages`,
`lastRequestAt` (lines 74-76), the modelled clock `now`, the clock-oracle
index `k`, the write-oracle index `wIdx`, and the recorded observables. -/
structure St where
  page : ℚ
  fetched : ℚ
  lastRequestAt : Int
  now : Int
  k : Nat
  wIdx : Nat
  writes : List WriteEv
  sends : List Int
  waits : List Int
  requests : List ℚ

/-- The pacer computation of line 82:
`lastRequestAt ? Math.max(0, lastRequestAt + minIntervalMs - now) : 0`. -/
def waitForSlot (lastRequestAt minI now : Int) : Int :=
  if lastRequestAt ≠ 0 then max 0 (lastRequestAt + minI - now) else 0

/-- Line 72: `minIntervalMs = Math.ceil((60_000 / rpm) * 1.0)`. -/
def minIntervalMs (rpm : ℚ) : Int := ⌈(60000 / rpm) * 1⌉

/-- JS `Number(s)` on a string of decimal digits. -/
def digitsToNat (cs : List Char) : Nat :=
  cs.foldl (fun a c => a * 10 + (c.toNat - 48)) 0

/-- Lines 98-99: the throttling backoff.  `retryAfter` is truthy and matches
`/^\d+$/` exactly when it is a nonempty all-digit string; then the wait is
`Number(retryAfter) * 1000`, otherwise the fixed fallback `10_000`. -/
def backoffMs (retryAfter : Option String) : Nat :=
  match retryAfter with
  | some s => if s ≠ "" ∧ s.data.all (fun c => c.isDigit) then digitsToNat s.data * 1000 else 10000
  | none => 10000

/-- Decimal digit character, value-correct for `d ≤ 9`. -/
def digitChar (d : Nat) : Char :=
  match d with
  | 0 => '0' | 1 => '1' | 2 => '2' | 3 => '3' | 4 => '4'
  | 5 => '5' | 6 => '6' | 7 => '7' | 8 => '8' | _ => '9'

/-- Fuel-driven decimal rendering; `fuel` bounds the number of digits. -/
def natToDigitsAux : Nat → Nat → List Char
  | 0, _ => []
  | fuel + 1, n =>
    if n < 10 then [digitChar n]
    else natToDigitsAux fuel (n / 10) ++ [digitChar (n % 10)]

/-- Decimal rendering of a natural number (JS template `${page}` for the
integer page counters used by the run); `n + 1` fuel always suffices. -/
def natToDigits (n : Nat) : List Char := natToDigitsAux (n + 1) n

/-- Decimal rendering as a string. -/
def natToString (n : Nat) : String := ⟨natToDigits n⟩

/-- Line 120: `name ? `${name}_page_${page}.json` : `page_${page}.json``. -/
def pageFilename (name : String) (page : Nat) : String :=
  if name ≠ "" then name ++ "_page_" ++ natToString page ++ ".json"
  else "page_" ++ natToString page ++ ".json"

/-- Line 69: `path.resolve(process.cwd(), "data-scripting", "strava")`,
relative to the process working directory.  The same constant for every
run of the process. -/
def baseDir : String := "data-scripting/strava"

/-- Line 121: `path.join(baseDir, filename)`. -/
def pageFilePath (name : String) (page : Nat) : String :=
  baseDir ++ "/" ++ pageFilename name page

/-- Line 135: `path.join(baseDir, "meta.json")` — note: no dependence on the
run's `name`. -/
def metaFilePath : String := baseDir ++ "/meta.json"

/-- A rational that is a natural number, if it is one. -/
def qAsNat (q : ℚ) : Option Nat :=
  if q.den = 1 ∧ 0 ≤ q.num then some q.num.toNat else none

/-- The filesystem path of a recorded write event (for integer page
numbers, the only ones a run can produce from an integer start page). -/
def evPath (ev : WriteEv) : Option String :=
  match ev with
  | .pageWrite name p _ => (qAsNat p).map (pageFilePath name)
  | .metaWrite _ => some metaFilePath

/-- Line 106: the error string of the non-2xx branch. -/
def statusErrString (status : Nat) : String :=
  "Strava API error (HTTP " ++ natToString status ++ ")"

/-- Line 113: the error string of the non-array branch. -/
def unexpectedBodyMsg : String := "Unexpected Strava response (expected JSON array)"

/-- Lines 128-134: the manifest object built after the loop. -/
def mkMeta (cfg : Config) (st : St) (genAt : Int) : Meta :=
  { name := if cfg.name ≠ "" then some cfg.name else none
    per_page := cfg.perPage
    start_page := cfg.startPage
    fetched_pages := st.fetched
    generated_at := genAt }

/-- Package the observables of a finished run. -/
def mkRes (o : Option Resp) (st : St) : RunResult :=
  ⟨o, st.writes, st.sends, st.waits, st.requests⟩

/-- Lines 128-141: after the loop breaks, build the manifest, write
`meta.json` (which may throw → 500), and answer 200 with the manifest. -/
def finishRun (cfg : Config) (env : Nat → Nat) (wok : Nat → Bool) (st : St) : RunResult :=
  let m := mkMeta cfg st (st.now + (env st.k : Int))
  if wok st.wIdx then mkRes (some (.okRun m)) { st with writes := st.writes ++ [.metaWrite m] }
  else mkRes (some .internalError) st

/-- The pacer wait computed on one loop pass (lines 81-82), with the clock
read `now = Date.now()` modelled by the oracle increment `env st.k`. -/
def pacedWait (env : Nat → Nat) (minI : Int) (st : St) : Int :=
  waitForSlot st.lastRequestAt minI (st.now + (env st.k : Int))

/-- The send instant of one loop pass: after the optional sleep (line 83),
`lastRequestAt = Date.now()` (line 85) reads the clock once more. -/
def pacedSend (env : Nat → Nat) (minI : Int) (st : St) : Int :=
  (if pacedWait env minI st ≠ 0 then st.now + (env st.k : Int) + pacedWait env minI st
   else st.now + (env st.k : Int)) + (env (st.k + 1) : Int)

/-- Lines 78-91: one pass of the loop preamble — the `maxPages` guard comes
first (separately, in `runLoop`); here: read the clock, compute the pacer
wait, sleep if it is nonzero, stamp `lastRequestAt = Date.now()`, and issue
the request (recording its send time and `page` parameter). -/
def paced (env : Nat → Nat) (minI : Int) (st : St) : St :=
  { st with
    now := pacedSend env minI st
    k := st.k + 2
    lastRequestAt := pacedSend env minI st
    sends := st.sends ++ [pacedSend env minI st]
    waits := st.waits ++ [pacedWait env minI st]
    requests := st.requests ++ [st.page] }

/-- Lines 97-101: the 429 branch suspends the loop for the backoff and then
retries without touching `page` or `fetchedPages`. -/
def throttleWait (retryAfter : Option String) (st1 : St) : St :=
  { st1 with now := st1.now + (backoffMs retryAfter : Int) }

/-- Lines 120-125: persist the page file, then advance `page` and
`fetchedPages`. -/
def recordPage (cfg : Config) (records : List Activity) (st1 : St) : St :=
  { st1 with
    writes := st1.writes ++ [.pageWrite cfg.name st1.page records]
    wIdx := st1.wIdx + 1
    page := st1.page + 1
    fetched := st1.fetched + 1 }

/-- Lines 78-126: the `while (true)` extraction loop, consuming the
scripted upstream responses one per issued request.  Each iteration first
checks the `maxPages` guard (line 79), then runs the pacer and sends the
request (`paced`), then dispatches on the response. -/
def runLoop (cfg : Config) (env : Nat → Nat) (wok : Nat → Bool) (minI : Int) :
    List FetchResp → St → RunResult
  | [], st =>
    if cfg.maxPages ≠ 0 ∧ cfg.maxPages ≤ st.fetched then finishRun cfg env wok st
    else mkRes none (paced env minI st)
  | r :: rest, st =>
    if cfg.maxPages ≠ 0 ∧ cfg.maxPages ≤ st.fetched then finishRun cfg env wok st
    else
      let st1 := paced env minI st
      match r with
      | .netErr => mkRes (some .internalError) st1
      | .ok status retryAfter body =>
        if status = 401 then mkRes (some .authError) st1
        else if status = 429 then
          runLoop cfg env wok minI rest (throttleWait retryAfter st1)
        else if status < 200 ∨ 300 ≤ status then
          mkRes (some (.upstreamError (statusErrString status) body)) st1
        else
          match body with
          | .notArray raw => mkRes (some (.upstreamError unexpectedBodyMsg (.notArray raw))) st1
          | .jarr records =>
            if records = [] then finishRun cfg env wok st1
            else if wok st1.wIdx then
              runLoop cfg env wok minI rest (recordPage cfg records st1)
            else mkRes (some .internalError) st1

/-- Line 57. -/
def rpmMsg : String := "`rpm` must be >= 1"
/-- Line 60. -/
def perPageMsg : String := "`per_page` must be 1..200"
/-- Line 63. -/
def startPageMsg : String := "`start_page` must be >= 1"
/-- Line 66. -/
def maxPagesMsg : String := "`max_pages` must be >= 0"
/-- Lines 44-47. -/
def missingTokenMsg : String :=
  "Missing Strava token. Set STRAVA_ACCESS_TOKEN in .env or send Authorization: Bearer <token>."

/-- Lines 56-67: the field validation chain, in source order, with the
source's field-specific messages.  `Number.isFinite` is built into the `ℚ`
model (see header). -/
def validateFields (rpm perPage startPage maxPages : ℚ) : Option String :=
  if ¬ 1 ≤ rpm then some rpmMsg
  else if ¬ (1 ≤ perPage ∧ perPage ≤ 200) then some perPageMsg
  else if ¬ 1 ≤ startPage then some startPageMsg
  else if ¬ 0 ≤ maxPages then some maxPagesMsg
  else none

/-- ASCII whitespace as matched by both the `\s` of `/^Bearer\s+/i` and
`String.prototype.trim` on the token strings in play. -/
def isWs (c : Char) : Bool :=
  c = ' ' ∨ c = '\t' ∨ c = '\n' ∨ c = '\r'

/-- JS `String.prototype.trim`. -/
def trimStr (s : String) : String :=
  ⟨((s.data.dropWhile isWs).reverse.dropWhile isWs).reverse⟩

/-- Line 14: `/^Bearer\s+/i.test(header)` — six characters spelling
"bearer" case-insensitively, followed by at least one whitespace char. -/
def bearerTest (cs : List Char) : Bool :=
  match cs with
  | b :: e :: a :: r :: e2 :: r2 :: c :: _ =>
    b.toLower = 'b' && e.toLower = 'e' && a.toLower = 'a' && r.toLower = 'r' &&
    e2.toLower = 'e' && r2.toLower = 'r' && isWs c
  | _ => false

/-- Line 15: `header.replace(/^Bearer\s+/i, "")` — drop the six "bearer"
characters and the (greedy) run of whitespace the regex matched. -/
def stripBearer (cs : List Char) : List Char :=
  (cs.drop 6).dropWhile isWs

/-- Lines 12-18: resolve the bearer token — a truthy Authorization header
matching the Bearer pattern wins, else the `STRAVA_ACCESS_TOKEN`
environment value; each source is trimmed. -/
def getBearerToken (authHeader : Option String) (envTok : String) : String :=
  match authHeader with
  | some h => if h ≠ "" ∧ bearerTest h.data then trimStr ⟨stripBearer h.data⟩ else trimStr envTok
  | none => trimStr envTok

/-- The extraction request as delivered to the handler: the header and
environment token sources plus the parsed body fields (defaults already
substituted by the `?? 15` etc. of lines 50-54). -/
structure Req where
  authHeader : Option String
  envToken : String
  rpm : ℚ
  perPage : ℚ
  startPage : ℚ
  maxPages : ℚ
  name : String

/-- Initial driver state (lines 74-76), at clock instant `t0`. -/
def initSt (startPage : ℚ) (t0 : Int) : St :=
  { page := startPage
    fetched := 0
    lastRequestAt := 0
    now := t0
    k := 0
    wIdx := 0
    writes := []
    sends := []
    waits := []
    requests := [] }

/-- A run that ended before doing any work. -/
def emptyResult (r : Resp) : RunResult := ⟨some r, [], [], [], []⟩

/-- The run configuration a request induces (lines 50-54). -/
def cfgOf (req : Req) : Config :=
  { name := trimStr req.name
    perPage := req.perPage
    startPage := req.startPage
    maxPages := req.maxPages
    rpm := req.rpm }

/-- Lines 40-145: the whole request handler — token resolution, the 400
branches, then the extraction loop and the manifest write. -/
def handler (req : Req) (env : Nat → Nat) (wok : Nat → Bool)
    (responses : List FetchResp) (t0 : Int) : RunResult :=
  if getBearerToken req.authHeader req.envToken = "" then
    emptyResult (.badRequest missingTokenMsg)
  else
    match validateFields req.rpm req.perPage req.startPage req.maxPages with
    | some msg => emptyResult (.badRequest msg)
    | none =>
      runLoop (cfgOf req) env wok (minIntervalMs req.rpm) responses (initSt req.startPage t0)

/-- The page numbers among a list of writes, in write order. -/
def pagesOf (ws : List WriteEv) : List ℚ :=
  ws.filterMap (fun ev => match ev with | .pageWrite _ p _ => some p | .metaWrite _ => none)

/-- Does a list of writes contain a manifest write? -/
def hasMeta (ws : List WriteEv) : Prop :=
  ∃ m, WriteEv.metaWrite m ∈ ws

/-- A concrete valid request (header token, run prefix "a") used to
instantiate hypotheses of the general theorems at concrete inputs. -/
def reqA : Req :=
  { authHeader := some "Bearer tok", envToken := "", rpm := 15, perPage := 200,
    startPage := 1, maxPages := 0, name := "a" }

/-- Like `reqA` but with run prefix "b". -/
def reqB : Req :=
  { authHeader := some "Bearer tok", envToken := "", rpm := 15, perPage := 200,
    startPage := 1, maxPages := 0, name := "b" }

/-- A clock oracle under which no extra time elapses between observations. -/
def envZ : Nat → Nat := fun _ => 0

/-- A write oracle under which every write succeeds. -/
def wokT : Nat → Bool := fun _ => true

/-- A write oracle under which every write fails. -/
def wokF : Nat → Bool := fun _ => false

/-- Like `reqA` but with the fractional rate `rpm = 1/2`: positive, yet
rejected by the source's `rpm < 1` check. -/
def reqHalf : Req :=
  { authHeader := some "Bearer tok", envToken := "", rpm := mkRat 1 2, perPage := 200,
    startPage := 1, maxPages := 0, name := "a" }

/-- Like `reqA` but capped at one page. -/
def reqOne : Req :=
  { authHeader := some "Bearer tok", envToken := "", rpm := 15, perPage := 200,
    startPage := 1, maxPages := 1, name := "a" }

/-- A request with no Authorization header and a whitespace-only
environment token: the resolved token is empty. -/
def reqNoTok : Req :=
  { authHeader := none, envToken := "   ", rpm := 15, perPage := 200,
    startPage := 1, maxPages := 0, name := "" }

/-- Consecutive send times are at least `minI` apart. -/
def gapsOK (minI : Int) (l : List Int) : Prop :=
  l.Chain' (fun a b => a + minI ≤ b)

/-- The page files a run has written so far: one `pageWrite` per page number
`startPage + i` for `i < k`, with contents `f i`. -/
def pageList (cfg : Config) (k : Nat) (f : Nat → List Activity) : List WriteEv :=
  (List.range k).map (fun (i : Nat) => .pageWrite cfg.name (cfg.startPage + (i : ℚ)) (f i))

/-- Pacer invariant of the loop state: the clock is positive (so a stamped
`lastRequestAt` is never confused with the "unset" sentinel `0`), the sends
recorded so far end at `lastRequestAt` (or are empty while it is unset), and
all recorded consecutive sends are at least `minI` apart. -/
def PacerInv (minI : Int) (st : St) : Prop :=
  1 ≤ st.now ∧
  (st.lastRequestAt = 0 → st.sends = []) ∧
  (st.lastRequestAt ≠ 0 → 1 ≤ st.lastRequestAt ∧ st.sends.getLast? = some st.lastRequestAt) ∧
  gapsOK minI st.sends

/-- Page-store invariant of the loop state: `fetchedPages` counts the pages
written so far, the current page number sits `fetchedPages` past
`startPage`, and the writes so far are exactly the page files of the
contiguous range starting at `startPage`. -/
def WritesInv (cfg : Config) (st : St) : Prop :=
  ∃ (k : Nat) (f : Nat → List Activity),
    st.fetched = (k : ℚ) ∧ st.page = cfg.startPage + (k : ℚ) ∧ st.writes = pageList cfg k f

/-- What a finished (or suspended) run guarantees: paced sends; on a 200
answer the writes are the contiguous page files followed by the manifest,
whose `fetched_pages` equals their number; on every other outcome the
writes are the contiguous page files only — no manifest. -/
def ResOK (cfg : Config) (minI : Int) (r : RunResult) : Prop :=
  gapsOK minI r.sends ∧
  (∀ m, r.resp = some (.okRun m) →
    ∃ (k : Nat) (f : Nat → List Activity),
      m.fetched_pages = (k : ℚ) ∧ r.writes = pageList cfg k f ++ [.metaWrite m]) ∧
  ((r.resp = none ∨ r.resp = some .authError ∨ r.resp = some .internalError ∨
      (∃ e d, r.resp = some (.upstreamError e d))) →
    ∃ (k : Nat) (f : Nat → List Activity), r.writes = pageList cfg k f)

/-! ### Projection lemmas -/

section StepLemmas

variable (cfg : Config) (env : Nat → Nat) (wok : Nat → Bool) (minI : Int)

@[simp] theorem paced_page (st : St) : (paced env minI st).page = st.page := rfl
@[simp] theorem paced_fetched (st : St) : (paced env minI st).fetched = st.fetched := rfl
@[simp] theorem paced_wIdx (st : St) : (paced env minI st).wIdx = st.wIdx := rfl
@[simp] theorem paced_writes (st : St) : (paced env minI st).writes = st.writes := rfl
@[simp] theorem paced_now (st : St) : (paced env minI st).now = pacedSend env minI st := rfl
@[simp] theorem paced_last (st : St) :
    (paced env minI st).lastRequestAt = pacedSend env minI st := rfl
@[simp] theorem paced_sends (st : St) :
    (paced env minI st).sends = st.sends ++ [pacedSend env minI st] := rfl
@[simp] theorem paced_waits (st : St) :
    (paced env minI st).waits = st.waits ++ [pacedWait env minI st] := rfl
@[simp] theorem paced_requests (st : St) :
    (paced env minI st).requests = st.requests ++ [st.page] := rfl

@[simp] theorem throttleWait_page (ra : Option String) (st : St) :
    (throttleWait ra st).page = st.page := rfl
@[simp] theorem throttleWait_fetched (ra : Option String) (st : St) :
    (throttleWait ra st).fetched = st.fetched := rfl
@[simp] theorem throttleWait_wIdx (ra : Option String) (st : St) :
    (throttleWait ra st).wIdx = st.wIdx := rfl
@[simp] theorem throttleWait_writes (ra : Option String) (st : St) :
    (throttleWait ra st).writes = st.writes := rfl
@[simp] theorem throttleWait_last (ra : Option String) (st : St) :
    (throttleWait ra st).lastRequestAt = st.lastRequestAt := rfl
@[simp] theorem throttleWait_now (ra : Option String) (st : St) :
    (throttleWait ra st).now = st.now + (backoffMs ra : Int) := rfl
@[simp] theorem throttleWait_sends (ra : Option String) (st : St) :
    (throttleWait ra st).sends = st.sends := rfl
@[simp] theorem throttleWait_waits (ra : Option String) (st : St) :
    (throttleWait ra st).waits = st.waits := rfl
@[simp] theorem throttleWait_requests (ra : Option String) (st : St) :
    (throttleWait ra st).requests = st.requests := rfl
@[simp] theorem throttleWait_k (ra : Option String) (st : St) :
    (throttleWait ra st).k = st.k := rfl

@[simp] theorem recordPage_page (records : List Activity) (st : St) :
    (recordPage cfg records st).page = st.page + 1 := rfl
@[simp] theorem recordPage_fetched (records : List Activity) (st : St) :
    (recordPage cfg records st).fetched = st.fetched + 1 := rfl
@[simp] theorem recordPage_wIdx (records : List Activity) (st : St) :
    (recordPage cfg records st).wIdx = st.wIdx + 1 := rfl
@[simp] theorem recordPage_writes (records : List Activity) (st : St) :
    (recordPage cfg records st).writes
    = st.writes ++ [.pageWrite cfg.name st.page records] := rfl
@[simp] theorem recordPage_last (records : List Activity) (st : St) :
    (recordPage cfg records st).lastRequestAt = st.lastRequestAt := rfl
@[simp] theorem recordPage_now (records : List Activity) (st : St) :
    (recordPage cfg records st).now = st.now := rfl
@[simp] theorem recordPage_sends (records : List Activity) (st : St) :
    (recordPage cfg records st).sends = st.sends := rfl
@[simp] theorem recordPage_waits (records : List Activity) (st : St) :
    (recordPage cfg records st).waits = st.waits := rfl
@[simp] theorem recordPage_requests (records : List Activity) (st : St) :
    (recordPage cfg records st).requests = st.requests := rfl
@[simp] theorem recordPage_k (records : List Activity) (st : St) :
    (recordPage cfg records st).k = st.k := rfl

@[simp] theorem mkRes_resp (o : Option Resp) (st : St) : (mkRes o st).resp = o := rfl
@[simp] theorem mkRes_writes (o : Option Resp) (st : St) : (mkRes o st).writes = st.writes := rfl
@[simp] theorem mkRes_sends (o : Option Resp) (st : St) : (mkRes o st).sends = st.sends := rfl
@[simp] theorem mkRes_waits (o : Option Resp) (st : St) : (mkRes o st).waits = st.waits := rfl
@[simp] theorem mkRes_requests (o : Option Resp) (st : St) :
    (mkRes o st).requests = st.requests := rfl

/-! ### Step lemmas: one unfolding of the loop per upstream outcome -/

theorem runLoop_stop (rs : List FetchResp) (st : St)
    (h : cfg.maxPages ≠ 0 ∧ cfg.maxPages ≤ st.fetched) :
    runLoop cfg env wok minI rs st = finishRun cfg env wok st := by
  cases rs with
  | nil => rw [runLoop, if_pos h]
  | cons r rest => rw [runLoop, if_pos h]

theorem runLoop_nil (st : St) (h : ¬(cfg.maxPages ≠ 0 ∧ cfg.maxPages ≤ st.fetched)) :
    runLoop cfg env wok minI [] st = mkRes none (paced env minI st) := by
  simp only [runLoop]
  rw [if_neg h]

theorem runLoop_netErr (rest : List FetchResp) (st : St)
    (h : ¬(cfg.maxPages ≠ 0 ∧ cfg.maxPages ≤ st.fetched)) :
    runLoop cfg env wok minI (.netErr :: rest) st
    = mkRes (some .internalError) (paced env minI st) := by
  rw [runLoop, if_neg h]

theorem runLoop_auth (ra : Option String) (b : Body) (rest : List FetchResp) (st : St)
    (h : ¬(cfg.maxPages ≠ 0 ∧ cfg.maxPages ≤ st.fetched)) :
    runLoop cfg env wok minI (.ok 401 ra b :: rest) st
    = mkRes (some .authError) (paced env minI st) := by
  rw [runLoop, if_neg h]
  rfl

theorem runLoop_throttle (ra : Option String) (b : Body) (rest : List FetchResp) (st : St)
    (h : ¬(cfg.maxPages ≠ 0 ∧ cfg.maxPages ≤ st.fetched)) :
    runLoop cfg env wok minI (.ok 429 ra b :: rest) st
    = runLoop cfg env wok minI rest (throttleWait ra (paced env minI st)) := by
  rw [runLoop, if_neg h]
  rfl

theorem runLoop_badStatus (status : Nat) (ra : Option String) (b : Body)
    (rest : List FetchResp) (st : St)
    (h : ¬(cfg.maxPages ≠ 0 ∧ cfg.maxPages ≤ st.fetched))
    (h401 : status ≠ 401) (h429 : status ≠ 429) (hbad : status < 200 ∨ 300 ≤ status) :
    runLoop cfg env wok minI (.ok status ra b :: rest) st
    = mkRes (some (.upstreamError (statusErrString status) b)) (paced env minI st) := by
  rw [runLoop, if_neg h]
  simp only [if_neg h401, if_neg h429, if_pos hbad]

theorem runLoop_notArray (status : Nat) (ra : Option String) (raw : String)
    (rest : List FetchResp) (st : St)
    (h : ¬(cfg.maxPages ≠ 0 ∧ cfg.maxPages ≤ st.fetched))
    (hok : 200 ≤ status ∧ status < 300) :
    runLoop cfg env wok minI (.ok status ra (.notArray raw) :: rest) st
    = mkRes (some (.upstreamError unexpectedBodyMsg (.notArray raw))) (paced env minI st) := by
  have h401 : status ≠ 401 := by omega
  have h429 : status ≠ 429 := by omega
  have hgood : ¬(status < 200 ∨ 300 ≤ status) := by omega
  rw [runLoop, if_neg h]
  simp only [if_neg h401, if_neg h429, if_neg hgood]

theorem runLoop_emptyPage (status : Nat) (ra : Option String)
    (rest : List FetchResp) (st : St)
    (h : ¬(cfg.maxPages ≠ 0 ∧ cfg.maxPages ≤ st.fetched))
    (hok : 200 ≤ status ∧ status < 300) :
    runLoop cfg env wok minI (.ok status ra (.jarr []) :: rest) st
    = finishRun cfg env wok (paced env minI st) := by
  have h401 : status ≠ 401 := by omega
  have h429 : status ≠ 429 := by omega
  have hgood : ¬(status < 200 ∨ 300 ≤ status) := by omega
  rw [runLoop, if_neg h]
  simp only [if_neg h401, if_neg h429, if_neg hgood]
  simp

theorem runLoop_page (status : Nat) (ra : Option String) (records : List Activity)
    (rest : List FetchResp) (st : St)
    (h : ¬(cfg.maxPages ≠ 0 ∧ cfg.maxPages ≤ st.fetched))
    (hok : 200 ≤ status ∧ status < 300) (hne : records ≠ [])
    (hw : wok st.wIdx = true) :
    runLoop cfg env wok minI (.ok status ra (.jarr records) :: rest) st
    = runLoop cfg env wok minI rest (recordPage cfg records (paced env minI st)) := by
  have h401 : status ≠ 401 := by omega
  have h429 : status ≠ 429 := by omega
  have hgood : ¬(status < 200 ∨ 300 ≤ status) := by omega
  rw [runLoop, if_neg h]
  simp only [if_neg h401, if_neg h429, if_neg hgood, if_neg hne, paced_wIdx, hw, if_pos]

theorem runLoop_pageFail (status : Nat) (ra : Option String) (records : List Activity)
    (rest : List FetchResp) (st : St)
    (h : ¬(cfg.maxPages ≠ 0 ∧ cfg.maxPages ≤ st.fetched))
    (hok : 200 ≤ status ∧ status < 300) (hne : records ≠ [])
    (hw : wok st.wIdx = false) :
    runLoop cfg env wok minI (.ok status ra (.jarr records) :: rest) st
    = mkRes (some .internalError) (paced env minI st) := by
  have h401 : status ≠ 401 := by omega
  have h429 : status ≠ 429 := by omega
  have hgood : ¬(status < 200 ∨ 300 ≤ status) := by omega
  rw [runLoop, if_neg h]
  simp only [if_neg h401, if_neg h429, if_neg hgood, if_neg hne, paced_wIdx, hw]
  simp

theorem finishRun_ok (st : St) (hw : wok st.wIdx = true) :
    finishRun cfg env wok st
    = mkRes (some (.okRun (mkMeta cfg st (st.now + (env st.k : Int)))))
        { st with writes := st.writes ++ [.metaWrite (mkMeta cfg st (st.now + (env st.k : Int)))] } := by
  rw [finishRun]
  simp only [hw, if_pos]

theorem finishRun_fail (st : St) (hw : wok st.wIdx = false) :
    finishRun cfg env wok st = mkRes (some .internalError) st := by
  rw [finishRun]
  simp only [hw]
  simp

end StepLemmas

/-! ### Pacer lemmas -/

section Pacer

variable (cfg : Config) (env : Nat → Nat) (wok : Nat → Bool) (minI : Int)

theorem waitForSlot_nonneg (last now : Int) : 0 ≤ waitForSlot last minI now := by
  unfold waitForSlot
  split
  · exact le_max_left 0 _
  · exact le_refl 0

theorem waitForSlot_unset (now : Int) : waitForSlot 0 minI now = 0 := by
  simp [waitForSlot]

theorem pacedWait_nonneg (st : St) : 0 ≤ pacedWait env minI st :=
  waitForSlot_nonneg minI _ _

theorem pacedWait_unset (st : St) (h : st.lastRequestAt = 0) :
    pacedWait env minI st = 0 := by
  unfold pacedWait
  rw [h]
  exact waitForSlot_unset minI _

theorem pacedSend_ge_now (st : St) : st.now ≤ pacedSend env minI st := by
  have h0 : 0 ≤ pacedWait env minI st := pacedWait_nonneg env minI st
  have e1 : (0 : Int) ≤ (env st.k : Int) := Int.natCast_nonneg _
  have e2 : (0 : Int) ≤ (env (st.k + 1) : Int) := Int.natCast_nonneg _
  unfold pacedSend
  split <;> omega

theorem pacedSend_gap (st : St) (h : st.lastRequestAt ≠ 0) :
    st.lastRequestAt + minI ≤ pacedSend env minI st := by
  have e2 : (0 : Int) ≤ (env (st.k + 1) : Int) := Int.natCast_nonneg _
  unfold pacedSend pacedWait waitForSlot
  rw [if_pos h]
  have hle : st.lastRequestAt + minI - (st.now + (env st.k : Int)) ≤
      max 0 (st.lastRequestAt + minI - (st.now + (env st.k : Int))) := le_max_right _ _
  split
  · omega
  · rename_i hz
    push_neg at hz
    omega

theorem pacerInv_paced (st : St) (h : PacerInv minI st) :
    PacerInv minI (paced env minI st) := by
  obtain ⟨h1, h2, h3, h4⟩ := h
  have hs : 1 ≤ pacedSend env minI st := le_trans h1 (pacedSend_ge_now env minI st)
  refine ⟨hs, ?_, ?_, ?_⟩
  · intro h0
    rw [paced_last] at h0
    omega
  · intro _
    rw [paced_last, paced_sends]
    exact ⟨hs, List.getLast?_concat _⟩
  · rw [paced_sends]
    unfold gapsOK at h4 ⊢
    rw [List.chain'_append]
    refine ⟨h4, List.chain'_singleton _, ?_⟩
    intro x hx y hy
    simp only [List.head?_cons, Option.mem_def, Option.some.injEq] at hy
    subst hy
    by_cases hl : st.lastRequestAt = 0
    · rw [h2 hl] at hx
      simp at hx
    · obtain ⟨-, hlast⟩ := h3 hl
      rw [hlast] at hx
      simp only [Option.mem_def, Option.some.injEq] at hx
      subst hx
      exact pacedSend_gap env minI st hl

theorem pacerInv_throttle (ra : Option String) (st : St) (h : PacerInv minI st) :
    PacerInv minI (throttleWait ra st) := by
  obtain ⟨h1, h2, h3, h4⟩ := h
  have hb : (0 : Int) ≤ (backoffMs ra : Int) := Int.natCast_nonneg _
  refine ⟨?_, h2, h3, h4⟩
  rw [throttleWait_now]
  omega

theorem pacerInv_recordPage (records : List Activity) (st : St) (h : PacerInv minI st) :
    PacerInv minI (recordPage cfg records st) := by
  obtain ⟨h1, h2, h3, h4⟩ := h
  exact ⟨h1, h2, h3, h4⟩

theorem pacerInv_init (startPage : ℚ) (t0 : Int) (h : 1 ≤ t0) :
    PacerInv minI (initSt startPage t0) := by
  refine ⟨h, fun _ => rfl, fun h0 => absurd rfl h0, ?_⟩
  exact List.chain'_nil

end Pacer

/-! ### Page-store invariant and the main loop lemma -/

section Writes

variable (cfg : Config) (env : Nat → Nat) (wok : Nat → Bool) (minI : Int)

theorem writesInv_paced (st : St) (h : WritesInv cfg st) :
    WritesInv cfg (paced env minI st) := by
  obtain ⟨k, f, h1, h2, h3⟩ := h
  exact ⟨k, f, h1, h2, h3⟩

theorem writesInv_throttle (ra : Option String) (st : St) (h : WritesInv cfg st) :
    WritesInv cfg (throttleWait ra st) := by
  obtain ⟨k, f, h1, h2, h3⟩ := h
  exact ⟨k, f, h1, h2, h3⟩

theorem writesInv_recordPage (records : List Activity) (st : St) (h : WritesInv cfg st) :
    WritesInv cfg (recordPage cfg records st) := by
  obtain ⟨k, f, h1, h2, h3⟩ := h
  refine ⟨k + 1, fun i => if i = k then records else f i, ?_, ?_, ?_⟩
  · rw [recordPage_fetched, h1]
    push_cast
    ring
  · rw [recordPage_page, h2]
    push_cast
    ring
  · rw [recordPage_writes, h3, h2]
    unfold pageList
    rw [List.range_succ, List.map_append]
    congr 1
    · apply List.map_congr_left
      intro i hi
      have hik : i ≠ k := by
        simp only [List.mem_range] at hi
        omega
      simp [hik]
    · simp

theorem writesInv_init (t0 : Int) : WritesInv cfg (initSt cfg.startPage t0) := by
  refine ⟨0, fun _ => [], ?_, ?_, ?_⟩
  · simp [initSt]
  · simp [initSt]
  · simp [initSt, pageList]

theorem finishRun_sends (st : St) : (finishRun cfg env wok st).sends = st.sends := by
  rw [finishRun]
  split <;> rfl

theorem finishRun_waits (st : St) : (finishRun cfg env wok st).waits = st.waits := by
  rw [finishRun]
  split <;> rfl

theorem finishRun_requests (st : St) : (finishRun cfg env wok st).requests = st.requests := by
  rw [finishRun]
  split <;> rfl

theorem finishRun_resOK (st : St) (hp : PacerInv minI st) (hw : WritesInv cfg st) :
    ResOK cfg minI (finishRun cfg env wok st) := by
  obtain ⟨k, f, h1, h2, h3⟩ := hw
  obtain ⟨-, -, -, h4⟩ := hp
  by_cases hb : wok st.wIdx
  · rw [finishRun_ok cfg env wok st hb]
    refine ⟨h4, ?_, ?_⟩
    · intro m hm
      simp only [mkRes_resp, Option.some.injEq, Resp.okRun.injEq] at hm
      refine ⟨k, f, ?_, ?_⟩
      · rw [← hm]
        exact h1
      · rw [← hm, mkRes_writes]
        simp only [h3]
    · intro hcase
      rcases hcase with h | h | h | ⟨e, d, h⟩ <;> simp only [mkRes_resp] at h <;> cases h
  · rw [finishRun_fail cfg env wok st (by simpa using hb)]
    refine ⟨h4, ?_, ?_⟩
    · intro m hm
      simp only [mkRes_resp, Option.some.injEq] at hm
      cases hm
    · intro _
      exact ⟨k, f, h3⟩

theorem runLoop_resOK (rs : List FetchResp) : ∀ (st : St),
    PacerInv minI st → WritesInv cfg st →
    ResOK cfg minI (runLoop cfg env wok minI rs st) := by
  induction rs with
  | nil =>
    intro st hp hw
    by_cases hstop : cfg.maxPages ≠ 0 ∧ cfg.maxPages ≤ st.fetched
    · rw [runLoop_stop cfg env wok minI _ st hstop]
      exact finishRun_resOK cfg env wok minI st hp hw
    · rw [runLoop_nil cfg env wok minI st hstop]
      have hp' := pacerInv_paced env minI st hp
      obtain ⟨k, f, -, -, h3⟩ := writesInv_paced cfg env minI st hw
      refine ⟨hp'.2.2.2, ?_, ?_⟩
      · intro m hm
        simp only [mkRes_resp] at hm
        cases hm
      · intro _
        exact ⟨k, f, h3⟩
  | cons r rest ih =>
    intro st hp hw
    by_cases hstop : cfg.maxPages ≠ 0 ∧ cfg.maxPages ≤ st.fetched
    · rw [runLoop_stop cfg env wok minI _ st hstop]
      exact finishRun_resOK cfg env wok minI st hp hw
    · have hp' := pacerInv_paced env minI st hp
      have hw' := writesInv_paced cfg env minI st hw
      cases r with
      | netErr =>
        rw [runLoop_netErr cfg env wok minI rest st hstop]
        obtain ⟨k, f, -, -, h3⟩ := hw'
        refine ⟨hp'.2.2.2, ?_, ?_⟩
        · intro m hm
          simp only [mkRes_resp, Option.some.injEq] at hm
          cases hm
        · intro _
          exact ⟨k, f, h3⟩
      | ok status ra body =>
        by_cases h401 : status = 401
        · subst h401
          rw [runLoop_auth cfg env wok minI ra body rest st hstop]
          obtain ⟨k, f, -, -, h3⟩ := hw'
          refine ⟨hp'.2.2.2, ?_, ?_⟩
          · intro m hm
            simp only [mkRes_resp, Option.some.injEq] at hm
            cases hm
          · intro _
            exact ⟨k, f, h3⟩
        · by_cases h429 : status = 429
          · subst h429
            rw [runLoop_throttle cfg env wok minI ra body rest st hstop]
            exact ih _ (pacerInv_throttle minI ra _ hp')
              (writesInv_throttle cfg ra _ hw')
          · by_cases hbad : status < 200 ∨ 300 ≤ status
            · rw [runLoop_badStatus cfg env wok minI status ra body rest st hstop h401 h429 hbad]
              obtain ⟨k, f, -, -, h3⟩ := hw'
              refine ⟨hp'.2.2.2, ?_, ?_⟩
              · intro m hm
                simp only [mkRes_resp, Option.some.injEq] at hm
                cases hm
              · intro _
                exact ⟨k, f, h3⟩
            · have hok : 200 ≤ status ∧ status < 300 := by omega
              cases body with
              | notArray raw =>
                rw [runLoop_notArray cfg env wok minI status ra raw rest st hstop hok]
                obtain ⟨k, f, -, -, h3⟩ := hw'
                refine ⟨hp'.2.2.2, ?_, ?_⟩
                · intro m hm
                  simp only [mkRes_resp, Option.some.injEq] at hm
                  cases hm
                · intro _
                  exact ⟨k, f, h3⟩
              | jarr records =>
                by_cases hrec : records = []
                · subst hrec
                  rw [runLoop_emptyPage cfg env wok minI status ra rest st hstop hok]
                  exact finishRun_resOK cfg env wok minI _ hp' hw'
                · by_cases hwok : wok st.wIdx
                  · rw [runLoop_page cfg env wok minI status ra records rest st hstop hok hrec hwok]
                    exact ih _ (pacerInv_recordPage cfg minI records _ hp')
                      (writesInv_recordPage cfg records _ hw')
                  · rw [runLoop_pageFail cfg env wok minI status ra records rest st hstop hok hrec
                      (by simpa using hwok)]
                    obtain ⟨k, f, -, -, h3⟩ := hw'
                    refine ⟨hp'.2.2.2, ?_, ?_⟩
                    · intro m hm
                      simp only [mkRes_resp, Option.some.injEq] at hm
                      cases hm
                    · intro _
                      exact ⟨k, f, h3⟩

end Writes

/-! ### Waits bookkeeping, handler bridge, and consumption lemmas -/

section Runs

variable (cfg : Config) (env : Nat → Nat) (wok : Nat → Bool) (minI : Int)

theorem runLoop_waits_shape (rs : List FetchResp) : ∀ (st : St),
    (runLoop cfg env wok minI rs st).waits = st.waits ∨
    ∃ t, (runLoop cfg env wok minI rs st).waits
      = st.waits ++ pacedWait env minI st :: t := by
  induction rs with
  | nil =>
    intro st
    by_cases hstop : cfg.maxPages ≠ 0 ∧ cfg.maxPages ≤ st.fetched
    · rw [runLoop_stop cfg env wok minI _ st hstop, finishRun_waits]
      exact Or.inl rfl
    · rw [runLoop_nil cfg env wok minI st hstop]
      exact Or.inr ⟨[], by simp⟩
  | cons r rest ih =>
    intro st
    by_cases hstop : cfg.maxPages ≠ 0 ∧ cfg.maxPages ≤ st.fetched
    · rw [runLoop_stop cfg env wok minI _ st hstop, finishRun_waits]
      exact Or.inl rfl
    · cases r with
      | netErr =>
        rw [runLoop_netErr cfg env wok minI rest st hstop]
        exact Or.inr ⟨[], by simp⟩
      | ok status ra body =>
        by_cases h401 : status = 401
        · subst h401
          rw [runLoop_auth cfg env wok minI ra body rest st hstop]
          exact Or.inr ⟨[], by simp⟩
        · by_cases h429 : status = 429
          · subst h429
            rw [runLoop_throttle cfg env wok minI ra body rest st hstop]
            rcases ih (throttleWait ra (paced env minI st)) with h | ⟨t, h⟩
            · rw [h]
              exact Or.inr ⟨[], by simp⟩
            · rw [h]
              refine Or.inr ⟨pacedWait env minI (throttleWait ra (paced env minI st)) :: t, ?_⟩
              simp
          · by_cases hbad : status < 200 ∨ 300 ≤ status
            · rw [runLoop_badStatus cfg env wok minI status ra body rest st hstop h401 h429 hbad]
              exact Or.inr ⟨[], by simp⟩
            · have hok : 200 ≤ status ∧ status < 300 := by omega
              cases body with
              | notArray raw =>
                rw [runLoop_notArray cfg env wok minI status ra raw rest st hstop hok]
                exact Or.inr ⟨[], by simp⟩
              | jarr records =>
                by_cases hrec : records = []
                · subst hrec
                  rw [runLoop_emptyPage cfg env wok minI status ra rest st hstop hok,
                    finishRun_waits]
                  exact Or.inr ⟨[], by simp⟩
                · by_cases hwok : wok st.wIdx
                  · rw [runLoop_page cfg env wok minI status ra records rest st hstop hok hrec hwok]
                    rcases ih (recordPage cfg records (paced env minI st)) with h | ⟨t, h⟩
                    · rw [h]
                      exact Or.inr ⟨[], by simp⟩
                    · rw [h]
                      refine Or.inr
                        ⟨pacedWait env minI (recordPage cfg records (paced env minI st)) :: t, ?_⟩
                      simp
                  · rw [runLoop_pageFail cfg env wok minI status ra records rest st hstop hok hrec
                      (by simpa using hwok)]
                    exact Or.inr ⟨[], by simp⟩

theorem runLoop_first_wait (rs : List FetchResp) (st : St)
    (h0 : st.lastRequestAt = 0) (hw : st.waits = []) :
    (runLoop cfg env wok minI rs st).waits = [] ∨
    ∃ t, (runLoop cfg env wok minI rs st).waits = 0 :: t := by
  have hw0 : pacedWait env minI st = 0 := pacedWait_unset env minI st h0
  rcases runLoop_waits_shape cfg env wok minI rs st with h | ⟨t, h⟩
  · rw [h, hw]
    exact Or.inl rfl
  · rw [h, hw, hw0]
    exact Or.inr ⟨t, rfl⟩

theorem handler_loop (req : Req) (rs : List FetchResp) (t0 : Int)
    (ht : ¬ getBearerToken req.authHeader req.envToken = "")
    (hv : validateFields req.rpm req.perPage req.startPage req.maxPages = none) :
    handler req env wok rs t0
    = runLoop (cfgOf req) env wok (minIntervalMs req.rpm) rs (initSt req.startPage t0) := by
  rw [handler, if_neg ht, hv]

theorem handler_badToken (req : Req) (rs : List FetchResp) (t0 : Int)
    (ht : getBearerToken req.authHeader req.envToken = "") :
    handler req env wok rs t0 = emptyResult (.badRequest missingTokenMsg) := by
  rw [handler, if_pos ht]

theorem handler_badFields (req : Req) (rs : List FetchResp) (t0 : Int) (msg : String)
    (ht : ¬ getBearerToken req.authHeader req.envToken = "")
    (hv : validateFields req.rpm req.perPage req.startPage req.maxPages = some msg) :
    handler req env wok rs t0 = emptyResult (.badRequest msg) := by
  rw [handler, if_neg ht, hv]

theorem runLoop_consumeSuccs (hmax : cfg.maxPages = 0) (hwok : ∀ i, wok i = true) :
    ∀ (recss : List (List Activity)) (st : St),
    (∀ l ∈ recss, l ≠ []) →
    ∃ st',
      (∀ rs : List FetchResp,
        runLoop cfg env wok minI
          (recss.map (fun l => FetchResp.ok 200 none (.jarr l)) ++ rs) st
        = runLoop cfg env wok minI rs st') ∧
      st'.fetched = st.fetched + (recss.length : ℚ) ∧
      st'.page = st.page + (recss.length : ℚ) ∧
      st'.writes.length = st.writes.length + recss.length := by
  intro recss
  induction recss with
  | nil =>
    intro st h
    exact ⟨st, fun rs => by simp, by simp, by simp, by simp⟩
  | cons l ls ih =>
    intro st h
    have hguard : ¬(cfg.maxPages ≠ 0 ∧ cfg.maxPages ≤ st.fetched) := by simp [hmax]
    have hne : l ≠ [] := h l (by simp)
    obtain ⟨st', he, h1, h2, h3⟩ :=
      ih (recordPage cfg l (paced env minI st)) (fun x hx => h x (by simp [hx]))
    refine ⟨st', ?_, ?_, ?_, ?_⟩
    · intro rs
      rw [List.map_cons, List.cons_append,
        runLoop_page cfg env wok minI 200 none l _ st hguard (by omega) hne (hwok _)]
      exact he rs
    · rw [h1]
      simp only [recordPage_fetched, paced_fetched, List.length_cons]
      push_cast
      ring
    · rw [h2]
      simp only [recordPage_page, paced_page, List.length_cons]
      push_cast
      ring
    · rw [h3]
      simp only [recordPage_writes, paced_writes, List.length_append, List.length_cons]
      simp
      omega

/-- jarring an empty page: one step from any non-stopped state to the 200
answer carrying the manifest, whose `fetched_pages` is the state's counter. -/
theorem runLoop_completeAt (st : St) (rest : List FetchResp)
    (hguard : ¬(cfg.maxPages ≠ 0 ∧ cfg.maxPages ≤ st.fetched))
    (hwok : wok st.wIdx = true) :
    ∃ m : Meta,
      runLoop cfg env wok minI (.ok 200 none (.jarr []) :: rest) st
        = mkRes (some (.okRun m))
            { paced env minI st with
              writes := (paced env minI st).writes ++ [.metaWrite m] } ∧
      m.fetched_pages = st.fetched := by
  refine ⟨mkMeta cfg (paced env minI st)
    ((paced env minI st).now + (env (paced env minI st).k : Int)), ?_, rfl⟩
  rw [runLoop_emptyPage cfg env wok minI 200 none rest st hguard (by omega)]
  exact finishRun_ok cfg env wok (paced env minI st) hwok

theorem runLoop_consume429s (ra : Option String) (b : Body) (k : Nat) :
    ∀ (st : St), ¬(cfg.maxPages ≠ 0 ∧ cfg.maxPages ≤ st.fetched) →
    ∃ st',
      (∀ rs : List FetchResp,
        runLoop cfg env wok minI (List.replicate k (.ok 429 ra b) ++ rs) st
        = runLoop cfg env wok minI rs st') ∧
      st'.page = st.page ∧ st'.fetched = st.fetched ∧ st'.writes = st.writes ∧
      st'.wIdx = st.wIdx ∧
      st'.requests = st.requests ++ List.replicate k st.page ∧
      st'.sends.length = st.sends.length + k := by
  induction k with
  | zero =>
    intro st hguard
    exact ⟨st, fun rs => by simp, rfl, rfl, rfl, rfl, by simp, by simp⟩
  | succ k ih =>
    intro st hguard
    have hguard' :
        ¬(cfg.maxPages ≠ 0 ∧ cfg.maxPages ≤ (throttleWait ra (paced env minI st)).fetched) := by
      simpa using hguard
    obtain ⟨st', he, i1, i2, i3, i4, i5, i6⟩ := ih (throttleWait ra (paced env minI st)) hguard'
    refine ⟨st', ?_, by simpa using i1, by simpa using i2, by simpa using i3,
      by simpa using i4, ?_, ?_⟩
    · intro rs
      rw [List.replicate_succ, List.cons_append,
        runLoop_throttle cfg env wok minI ra b _ st hguard]
      exact he rs
    · rw [i5]
      simp only [throttleWait_requests, paced_requests, throttleWait_page, paced_page,
        List.replicate_succ, List.append_assoc, List.singleton_append]
    · rw [i6]
      simp only [throttleWait_sends, paced_sends, List.length_append, List.length_cons]
      simp
      omega

theorem cfgOf_name (req : Req) : (cfgOf req).name = trimStr req.name := rfl

theorem cfgOf_startPage (req : Req) : (cfgOf req).startPage = req.startPage := rfl

theorem cfgOf_maxPages (req : Req) : (cfgOf req).maxPages = req.maxPages := rfl

theorem pageList_length (c : Config) (k : Nat) (f : Nat → List Activity) :
    (pageList c k f).length = k := by
  simp [pageList]

theorem validateFields_none_iff (rpm perPage startPage maxPages : ℚ) :
    validateFields rpm perPage startPage maxPages = none ↔
    (1 ≤ rpm ∧ 1 ≤ perPage ∧ perPage ≤ 200 ∧ 1 ≤ startPage ∧ 0 ≤ maxPages) := by
  unfold validateFields
  split_ifs with h1 h2 h3 h4
  all_goals simp_all

end Runs

/-! ### Shape of the persisted page set -/

section Pages

theorem pagesOf_append (a b : List WriteEv) : pagesOf (a ++ b) = pagesOf a ++ pagesOf b := by
  simp [pagesOf]

theorem pagesOf_map_pageWrite (nm : String) (g : Nat → ℚ) (f : Nat → List Activity) :
    ∀ l : List Nat,
      pagesOf (l.map (fun i => WriteEv.pageWrite nm (g i) (f i))) = l.map g := by
  intro l
  induction l with
  | nil => rfl
  | cons a t ihl =>
    simp only [List.map_cons, pagesOf, List.filterMap_cons] at ihl ⊢
    rw [ihl]

theorem pagesOf_pageList (cfg : Config) (k : Nat) (f : Nat → List Activity) :
    pagesOf (pageList cfg k f)
    = (List.range k).map (fun (i : Nat) => cfg.startPage + (i : ℚ)) := by
  unfold pageList
  exact pagesOf_map_pageWrite cfg.name _ f (List.range k)

theorem pageRange_nodup (s : ℚ) (k : Nat) :
    ((List.range k).map (fun (i : Nat) => s + (i : ℚ))).Nodup := by
  refine List.Nodup.map ?_ (List.nodup_range k)
  intro a b hab
  simp only at hab
  have h : (a : ℚ) = (b : ℚ) := add_left_cancel hab
  exact_mod_cast h

theorem pageList_no_meta (cfg : Config) (k : Nat) (f : Nat → List Activity) (m : Meta) :
    WriteEv.metaWrite m ∉ pageList cfg k f := by
  simp [pageList]

theorem pageList_all_pages (cfg : Config) (k : Nat) (f : Nat → List Activity) :
    ∀ ev ∈ pageList cfg k f, ∃ name p recs, ev = WriteEv.pageWrite name p recs := by
  intro ev hev
  simp only [pageList, List.mem_map, List.mem_range] at hev
  obtain ⟨i, -, hi⟩ := hev
  exact ⟨cfg.name, cfg.startPage + (i : ℚ), f i, hi.symm⟩

end Pages

/-! ### C1, C2 -/

/-- C1: for every valid extraction request whose run reaches the Completed
terminal state (a 200 answer carrying the manifest `m`), the page numbers
persisted as page files are exactly the contiguous range
`[startPage, startPage + fetched_pages - 1]` — the image of
`[0, fetched_pages)` under `startPage + ·` — with no repeats, and every page
file is written strictly before the manifest.  (In the embedding the page
write and the `page += 1` advance form one loop step, `recordPage`, so each
page is persisted exactly when the driver advances past it.) -/
theorem c1_completed_contiguous (req : Req) (env : Nat → Nat) (wok : Nat → Bool)
    (rs : List FetchResp) (t0 : Int) (m : Meta) (ht0 : 1 ≤ t0)
    (hm : (handler req env wok rs t0).resp = some (.okRun m)) :
    ∃ k : Nat, m.fetched_pages = (k : ℚ) ∧
      pagesOf (handler req env wok rs t0).writes
        = (List.range k).map (fun (i : Nat) => req.startPage + (i : ℚ)) ∧
      (pagesOf (handler req env wok rs t0).writes).Nodup ∧
      ∃ pre, (handler req env wok rs t0).writes = pre ++ [.metaWrite m] ∧
        ∀ ev ∈ pre, ∃ name p recs, ev = WriteEv.pageWrite name p recs := by
  by_cases ht : getBearerToken req.authHeader req.envToken = ""
  · rw [handler_badToken env wok req rs t0 ht] at hm
    cases hm
  · cases hv : validateFields req.rpm req.perPage req.startPage req.maxPages with
    | some msg =>
      rw [handler_badFields env wok req rs t0 msg ht hv] at hm
      cases hm
    | none =>
      rw [handler_loop env wok req rs t0 ht hv] at hm ⊢
      have hres := runLoop_resOK (cfgOf req) env wok (minIntervalMs req.rpm) rs
        (initSt req.startPage t0)
        (pacerInv_init (minIntervalMs req.rpm) req.startPage t0 ht0)
        (writesInv_init (cfgOf req) t0)
      obtain ⟨k, f, hk, hws⟩ := hres.2.1 m hm
      refine ⟨k, hk, ?_, ?_, pageList (cfgOf req) k f, hws, ?_⟩
      · rw [hws, pagesOf_append, pagesOf_pageList]
        simp [pagesOf, cfgOf]
      · rw [hws, pagesOf_append]
        have : pagesOf [WriteEv.metaWrite m] = [] := rfl
        rw [this, List.append_nil, pagesOf_pageList]
        exact pageRange_nodup _ k
      · exact pageList_all_pages (cfgOf req) k f

/-- C2: the pacer.  For every run: consecutive recorded send instants are at
least `minIntervalMs` apart (including across throttling retries), the first
recorded pacer wait is zero (`lastRequestAt` starts unset), and
`minIntervalMs` is `⌈60000 / rpm⌉` — the `* 1.0` of the source is the
identity.  The wait formula `max(0, lastSentAt + minIntervalMs - now)` is
transcribed as `waitForSlot`, and `lastRequestAt` is stamped at send time
(`paced`), before the response arrives. -/
theorem c2_pacer (req : Req) (env : Nat → Nat) (wok : Nat → Bool)
    (rs : List FetchResp) (t0 : Int) (ht0 : 1 ≤ t0) :
    gapsOK (minIntervalMs req.rpm) (handler req env wok rs t0).sends ∧
    ((handler req env wok rs t0).waits = [] ∨
      ∃ t, (handler req env wok rs t0).waits = 0 :: t) ∧
    minIntervalMs req.rpm = ⌈(60000 : ℚ) / req.rpm⌉ := by
  refine ⟨?_, ?_, by rw [minIntervalMs, mul_one]⟩
  · by_cases ht : getBearerToken req.authHeader req.envToken = ""
    · rw [handler_badToken env wok req rs t0 ht]
      exact List.chain'_nil
    · cases hv : validateFields req.rpm req.perPage req.startPage req.maxPages with
      | some msg =>
        rw [handler_badFields env wok req rs t0 msg ht hv]
        exact List.chain'_nil
      | none =>
        rw [handler_loop env wok req rs t0 ht hv]
        exact (runLoop_resOK (cfgOf req) env wok (minIntervalMs req.rpm) rs
          (initSt req.startPage t0)
          (pacerInv_init (minIntervalMs req.rpm) req.startPage t0 ht0)
          (writesInv_init (cfgOf req) t0)).1
  · by_cases ht : getBearerToken req.authHeader req.envToken = ""
    · rw [handler_badToken env wok req rs t0 ht]
      exact Or.inl rfl
    · cases hv : validateFields req.rpm req.perPage req.startPage req.maxPages with
      | some msg =>
        rw [handler_badFields env wok req rs t0 msg ht hv]
        exact Or.inl rfl
      | none =>
        rw [handler_loop env wok req rs t0 ht hv]
        exact runLoop_first_wait (cfgOf req) env wok (minIntervalMs req.rpm) rs
          (initSt req.startPage t0) rfl rfl


/-! ### C6, C7, C8 -/

/-- C6: a Success with an empty record sequence completes the run: the loop
stops, the empty page is neither persisted nor counted in `fetched_pages`,
and the manifest — recording `fetched_pages` equal to the number of
previously persisted pages — is the last artifact written. -/
theorem c6_empty_page_completes (req : Req) (env : Nat → Nat) (wok : Nat → Bool)
    (recss : List (List Activity)) (t0 : Int)
    (ht : ¬ getBearerToken req.authHeader req.envToken = "")
    (hv : validateFields req.rpm req.perPage req.startPage req.maxPages = none)
    (hmax : req.maxPages = 0)
    (hne : ∀ l ∈ recss, l ≠ [])
    (hwok : ∀ i, wok i = true) (ht0 : 1 ≤ t0) :
    ∃ (m : Meta) (f : Nat → List Activity),
      (handler req env wok
        (recss.map (fun l => FetchResp.ok 200 none (.jarr l))
          ++ [.ok 200 none (.jarr [])]) t0).resp = some (.okRun m) ∧
      m.fetched_pages = (recss.length : ℚ) ∧
      (handler req env wok
        (recss.map (fun l => FetchResp.ok 200 none (.jarr l))
          ++ [.ok 200 none (.jarr [])]) t0).writes
        = pageList (cfgOf req) recss.length f ++ [.metaWrite m] := by
  rw [handler_loop env wok req _ t0 ht hv]
  have hmax' : (cfgOf req).maxPages = 0 := hmax
  obtain ⟨st', he, h1, h2, h3⟩ :=
    runLoop_consumeSuccs (cfgOf req) env wok (minIntervalMs req.rpm) hmax' hwok recss
      (initSt req.startPage t0) hne
  have hguard : ¬((cfgOf req).maxPages ≠ 0 ∧ (cfgOf req).maxPages ≤ st'.fetched) := by
    simp [hmax']
  obtain ⟨m, hm, hfet⟩ := runLoop_completeAt (cfgOf req) env wok (minIntervalMs req.rpm)
    st' [] hguard (hwok _)
  have hFull := (he [FetchResp.ok 200 none (.jarr [])]).trans hm
  have hfet' : m.fetched_pages = (recss.length : ℚ) := by
    rw [hfet, h1]
    simp [initSt]
  have hres := runLoop_resOK (cfgOf req) env wok (minIntervalMs req.rpm)
    (recss.map (fun l => FetchResp.ok 200 none (.jarr l)) ++ [.ok 200 none (.jarr [])])
    (initSt req.startPage t0)
    (pacerInv_init (minIntervalMs req.rpm) req.startPage t0 ht0)
    (writesInv_init (cfgOf req) t0)
  rw [hFull] at hres
  obtain ⟨k, f, hk, hws⟩ := hres.2.1 m rfl
  have hkl : k = recss.length := by
    have hq : (k : ℚ) = (recss.length : ℚ) := by rw [← hk, hfet']
    exact_mod_cast hq
  subst hkl
  rw [hFull]
  exact ⟨m, f, rfl, hfet', hws⟩

/-- C7: an Unauthorized (401) outcome aborts the run with the auth-failure
response, the pages persisted before it remain exactly the contiguous range
already fetched, no manifest is ever written, and nothing after the 401 is
consumed (the run with and without a continuation is identical).
Instantiating `recss := []` gives the first-request case: zero pages and no
manifest. -/
theorem c7_unauthorized_aborts (req : Req) (env : Nat → Nat) (wok : Nat → Bool)
    (recss : List (List Activity)) (ra : Option String) (b : Body)
    (rest : List FetchResp) (t0 : Int)
    (ht : ¬ getBearerToken req.authHeader req.envToken = "")
    (hv : validateFields req.rpm req.perPage req.startPage req.maxPages = none)
    (hmax : req.maxPages = 0)
    (hne : ∀ l ∈ recss, l ≠ [])
    (hwok : ∀ i, wok i = true) (ht0 : 1 ≤ t0) :
    (handler req env wok
      (recss.map (fun l => FetchResp.ok 200 none (.jarr l))
        ++ FetchResp.ok 401 ra b :: rest) t0).resp = some .authError ∧
    pagesOf (handler req env wok
      (recss.map (fun l => FetchResp.ok 200 none (.jarr l))
        ++ FetchResp.ok 401 ra b :: rest) t0).writes
      = (List.range recss.length).map (fun (i : Nat) => req.startPage + (i : ℚ)) ∧
    ¬ hasMeta (handler req env wok
      (recss.map (fun l => FetchResp.ok 200 none (.jarr l))
        ++ FetchResp.ok 401 ra b :: rest) t0).writes ∧
    handler req env wok
      (recss.map (fun l => FetchResp.ok 200 none (.jarr l))
        ++ FetchResp.ok 401 ra b :: rest) t0
    = handler req env wok
      (recss.map (fun l => FetchResp.ok 200 none (.jarr l))
        ++ [FetchResp.ok 401 ra b]) t0 := by
  have hmax' : (cfgOf req).maxPages = 0 := hmax
  obtain ⟨st', he, h1, h2, h3⟩ :=
    runLoop_consumeSuccs (cfgOf req) env wok (minIntervalMs req.rpm) hmax' hwok recss
      (initSt req.startPage t0) hne
  have hguard : ¬((cfgOf req).maxPages ≠ 0 ∧ (cfgOf req).maxPages ≤ st'.fetched) := by
    simp [hmax']
  have hFull := (he (FetchResp.ok 401 ra b :: rest)).trans
    (runLoop_auth (cfgOf req) env wok (minIntervalMs req.rpm) ra b rest st' hguard)
  have hFull1 := (he [FetchResp.ok 401 ra b]).trans
    (runLoop_auth (cfgOf req) env wok (minIntervalMs req.rpm) ra b [] st' hguard)
  have hres := runLoop_resOK (cfgOf req) env wok (minIntervalMs req.rpm)
    (recss.map (fun l => FetchResp.ok 200 none (.jarr l)) ++ FetchResp.ok 401 ra b :: rest)
    (initSt req.startPage t0)
    (pacerInv_init (minIntervalMs req.rpm) req.startPage t0 ht0)
    (writesInv_init (cfgOf req) t0)
  rw [hFull] at hres
  obtain ⟨k, f, hws⟩ := hres.2.2 (Or.inr (Or.inl rfl))
  simp only [mkRes_writes, paced_writes] at hws
  have hlen : st'.writes.length = recss.length := by
    rw [h3]
    simp [initSt]
  have hkl : k = recss.length := by
    have := congrArg List.length hws
    rw [hlen, pageList_length] at this
    omega
  subst hkl
  refine ⟨?_, ?_, ?_, ?_⟩
  · rw [handler_loop env wok req _ t0 ht hv, hFull]
    rfl
  · rw [handler_loop env wok req _ t0 ht hv, hFull]
    show pagesOf st'.writes = _
    rw [hws, pagesOf_pageList, cfgOf_startPage]
  · rw [handler_loop env wok req _ t0 ht hv, hFull]
    rintro ⟨m, hmem⟩
    simp only [mkRes_writes, paced_writes] at hmem
    rw [hws] at hmem
    exact pageList_no_meta (cfgOf req) recss.length f m hmem
  · rw [handler_loop env wok req _ t0 ht hv, handler_loop env wok req _ t0 ht hv,
      hFull, hFull1]

/-- C8: a non-2xx status other than 401/429 aborts the run immediately with
the status and body surfaced in the 502 response; a 2xx body that is not a
JSON array does the same with the "expected JSON array" message; in both
cases no manifest is written and nothing after the offending response is
consumed. -/
theorem c8_protocol_aborts (req : Req) (env : Nat → Nat) (wok : Nat → Bool)
    (recss : List (List Activity)) (ra : Option String) (b : Body) (raw : String)
    (rest : List FetchResp) (t0 : Int) (status : Nat)
    (ht : ¬ getBearerToken req.authHeader req.envToken = "")
    (hv : validateFields req.rpm req.perPage req.startPage req.maxPages = none)
    (hmax : req.maxPages = 0)
    (hne : ∀ l ∈ recss, l ≠ [])
    (hwok : ∀ i, wok i = true) (ht0 : 1 ≤ t0) :
    ((status < 200 ∨ 300 ≤ status) → status ≠ 401 → status ≠ 429 →
      (handler req env wok
        (recss.map (fun l => FetchResp.ok 200 none (.jarr l))
          ++ FetchResp.ok status ra b :: rest) t0).resp
        = some (.upstreamError (statusErrString status) b) ∧
      ¬ hasMeta (handler req env wok
        (recss.map (fun l => FetchResp.ok 200 none (.jarr l))
          ++ FetchResp.ok status ra b :: rest) t0).writes ∧
      handler req env wok
        (recss.map (fun l => FetchResp.ok 200 none (.jarr l))
          ++ FetchResp.ok status ra b :: rest) t0
      = handler req env wok
        (recss.map (fun l => FetchResp.ok 200 none (.jarr l))
          ++ [FetchResp.ok status ra b]) t0) ∧
    (200 ≤ status → status < 300 →
      (handler req env wok
        (recss.map (fun l => FetchResp.ok 200 none (.jarr l))
          ++ FetchResp.ok status ra (.notArray raw) :: rest) t0).resp
        = some (.upstreamError unexpectedBodyMsg (.notArray raw)) ∧
      ¬ hasMeta (handler req env wok
        (recss.map (fun l => FetchResp.ok 200 none (.jarr l))
          ++ FetchResp.ok status ra (.notArray raw) :: rest) t0).writes ∧
      handler req env wok
        (recss.map (fun l => FetchResp.ok 200 none (.jarr l))
          ++ FetchResp.ok status ra (.notArray raw) :: rest) t0
      = handler req env wok
        (recss.map (fun l => FetchResp.ok 200 none (.jarr l))
          ++ [FetchResp.ok status ra (.notArray raw)]) t0) := by
  have hmax' : (cfgOf req).maxPages = 0 := hmax
  obtain ⟨st', he, h1, h2, h3⟩ :=
    runLoop_consumeSuccs (cfgOf req) env wok (minIntervalMs req.rpm) hmax' hwok recss
      (initSt req.startPage t0) hne
  have hguard : ¬((cfgOf req).maxPages ≠ 0 ∧ (cfgOf req).maxPages ≤ st'.fetched) := by
    simp [hmax']
  constructor
  · intro hbad h401 h429
    have hFull := (he (FetchResp.ok status ra b :: rest)).trans
      (runLoop_badStatus (cfgOf req) env wok (minIntervalMs req.rpm) status ra b rest st'
        hguard h401 h429 hbad)
    have hFull1 := (he [FetchResp.ok status ra b]).trans
      (runLoop_badStatus (cfgOf req) env wok (minIntervalMs req.rpm) status ra b [] st'
        hguard h401 h429 hbad)
    have hres := runLoop_resOK (cfgOf req) env wok (minIntervalMs req.rpm)
      (recss.map (fun l => FetchResp.ok 200 none (.jarr l)) ++ FetchResp.ok status ra b :: rest)
      (initSt req.startPage t0)
      (pacerInv_init (minIntervalMs req.rpm) req.startPage t0 ht0)
      (writesInv_init (cfgOf req) t0)
    rw [hFull] at hres
    obtain ⟨k, f, hws⟩ := hres.2.2 (Or.inr (Or.inr (Or.inr ⟨_, _, rfl⟩)))
    simp only [mkRes_writes, paced_writes] at hws
    refine ⟨?_, ?_, ?_⟩
    · rw [handler_loop env wok req _ t0 ht hv, hFull]
      rfl
    · rw [handler_loop env wok req _ t0 ht hv, hFull]
      rintro ⟨m, hmem⟩
      simp only [mkRes_writes, paced_writes] at hmem
      rw [hws] at hmem
      exact pageList_no_meta (cfgOf req) k f m hmem
    · rw [handler_loop env wok req _ t0 ht hv, handler_loop env wok req _ t0 ht hv,
        hFull, hFull1]
  · intro hlo hhi
    have hok : 200 ≤ status ∧ status < 300 := ⟨hlo, hhi⟩
    have hFull := (he (FetchResp.ok status ra (.notArray raw) :: rest)).trans
      (runLoop_notArray (cfgOf req) env wok (minIntervalMs req.rpm) status ra raw rest st'
        hguard hok)
    have hFull1 := (he [FetchResp.ok status ra (.notArray raw)]).trans
      (runLoop_notArray (cfgOf req) env wok (minIntervalMs req.rpm) status ra raw [] st'
        hguard hok)
    have hres := runLoop_resOK (cfgOf req) env wok (minIntervalMs req.rpm)
      (recss.map (fun l => FetchResp.ok 200 none (.jarr l))
        ++ FetchResp.ok status ra (.notArray raw) :: rest)
      (initSt req.startPage t0)
      (pacerInv_init (minIntervalMs req.rpm) req.startPage t0 ht0)
      (writesInv_init (cfgOf req) t0)
    rw [hFull] at hres
    obtain ⟨k, f, hws⟩ := hres.2.2 (Or.inr (Or.inr (Or.inr ⟨_, _, rfl⟩)))
    simp only [mkRes_writes, paced_writes] at hws
    refine ⟨?_, ?_, ?_⟩
    · rw [handler_loop env wok req _ t0 ht hv, hFull]
      rfl
    · rw [handler_loop env wok req _ t0 ht hv, hFull]
      rintro ⟨m, hmem⟩
      simp only [mkRes_writes, paced_writes] at hmem
      rw [hws] at hmem
      exact pageList_no_meta (cfgOf req) k f m hmem
    · rw [handler_loop env wok req _ t0 ht hv, handler_loop env wok req _ t0 ht hv,
        hFull, hFull1]

/-! ### C4 -/

/-- C4: throttling.  The computed backoff is `retryAfterSeconds * 1000` when
the server supplied a numeric (digit-string, per the source's `/^\d+$/`)
retry-after value and exactly 10000 ms otherwise; a throttled run retries
the same page number indefinitely — for every number `k` of consecutive 429
responses the run is still in flight (`resp = none`), has persisted nothing,
has requested the same start page `k + 1` times, and has sent `k + 1`
requests — and a page that finally succeeds after throttling counts exactly
once against `maxPages` (`maxPages = 1` completes with `fetched_pages = 1`
however many 429s preceded the success). -/
theorem c4_throttle_backoff (req : Req) (env : Nat → Nat) (wok : Nat → Bool)
    (ra : Option String) (b : Body) (k : Nat) (t0 : Int)
    (ht : ¬ getBearerToken req.authHeader req.envToken = "")
    (hv : validateFields req.rpm req.perPage req.startPage req.maxPages = none) :
    (∀ s : String, s.data ≠ [] → s.data.all (fun c => c.isDigit) = true →
      backoffMs (some s) = digitsToNat s.data * 1000) ∧
    backoffMs none = 10000 ∧
    (∀ s : String, ¬(s ≠ "" ∧ s.data.all (fun c => c.isDigit) = true) →
      backoffMs (some s) = 10000) ∧
    (req.maxPages = 0 ∨ 1 ≤ req.maxPages →
      (handler req env wok (List.replicate k (.ok 429 ra b)) t0).resp = none ∧
      (handler req env wok (List.replicate k (.ok 429 ra b)) t0).writes = [] ∧
      (handler req env wok (List.replicate k (.ok 429 ra b)) t0).requests
        = List.replicate (k + 1) req.startPage ∧
      (handler req env wok (List.replicate k (.ok 429 ra b)) t0).sends.length = k + 1) ∧
    (req.maxPages = 1 → ∀ recs : List Activity, recs ≠ [] → (∀ i, wok i = true) →
      ∃ m : Meta,
        (handler req env wok
          (List.replicate k (.ok 429 ra b) ++ [.ok 200 none (.jarr recs)]) t0).resp
          = some (.okRun m) ∧
        m.fetched_pages = 1) := by
  refine ⟨?_, rfl, ?_, ?_, ?_⟩
  · intro s hne hdig
    have hs : s ≠ "" := by
      intro h
      subst h
      exact hne rfl
    simp only [backoffMs]
    rw [if_pos ⟨hs, hdig⟩]
  · intro s hcond
    simp only [backoffMs]
    rw [if_neg ?_]
    intro hc
    exact hcond ⟨hc.1, hc.2⟩
  · intro hmp
    have hguard : ¬((cfgOf req).maxPages ≠ 0 ∧
        (cfgOf req).maxPages ≤ (initSt req.startPage t0).fetched) := by
      rintro ⟨hne0, hle⟩
      simp only [cfgOf_maxPages, initSt] at hne0 hle
      rcases hmp with h | h
      · exact hne0 h
      · linarith
    obtain ⟨st', he, p1, p2, p3, p4, p5, p6⟩ :=
      runLoop_consume429s (cfgOf req) env wok (minIntervalMs req.rpm) ra b k
        (initSt req.startPage t0) hguard
    have h0 := he []
    rw [List.append_nil] at h0
    have hguard' : ¬((cfgOf req).maxPages ≠ 0 ∧ (cfgOf req).maxPages ≤ st'.fetched) := by
      rw [p2]
      exact hguard
    rw [handler_loop env wok req _ t0 ht hv, h0,
      runLoop_nil (cfgOf req) env wok (minIntervalMs req.rpm) st' hguard']
    refine ⟨rfl, ?_, ?_, ?_⟩
    · simp only [mkRes_writes, paced_writes, p3]
      rfl
    · simp only [mkRes_requests, paced_requests, p5, p1]
      rw [List.append_assoc]
      simp only [initSt]
      rw [List.nil_append, ← List.replicate_succ']
    · simp only [mkRes_sends, paced_sends, List.length_append, List.length_cons,
        List.length_nil, p6]
      simp [initSt]
  · intro hm1 recs hrecs hwok
    have hguard : ¬((cfgOf req).maxPages ≠ 0 ∧
        (cfgOf req).maxPages ≤ (initSt req.startPage t0).fetched) := by
      rintro ⟨-, hle⟩
      simp only [cfgOf_maxPages, initSt, hm1] at hle
      linarith
    obtain ⟨st', he, p1, p2, p3, p4, p5, p6⟩ :=
      runLoop_consume429s (cfgOf req) env wok (minIntervalMs req.rpm) ra b k
        (initSt req.startPage t0) hguard
    have hguard' : ¬((cfgOf req).maxPages ≠ 0 ∧ (cfgOf req).maxPages ≤ st'.fetched) := by
      rw [p2]
      exact hguard
    have hfet'' :
        (recordPage (cfgOf req) recs (paced env (minIntervalMs req.rpm) st')).fetched
        = 1 := by
      simp only [recordPage_fetched, paced_fetched, p2, initSt]
      norm_num
    have hstop : (cfgOf req).maxPages ≠ 0 ∧ (cfgOf req).maxPages ≤
        (recordPage (cfgOf req) recs (paced env (minIntervalMs req.rpm) st')).fetched := by
      rw [hfet'']
      simp only [cfgOf_maxPages, hm1]
      norm_num
    rw [handler_loop env wok req _ t0 ht hv, he [FetchResp.ok 200 none (.jarr recs)],
      runLoop_page (cfgOf req) env wok (minIntervalMs req.rpm) 200 none recs [] st'
        hguard' (by omega) hrecs (hwok _),
      runLoop_stop (cfgOf req) env wok (minIntervalMs req.rpm) [] _ hstop,
      finishRun_ok (cfgOf req) env wok _ (hwok _)]
    exact ⟨_, rfl, hfet''⟩

/-! ### Decimal rendering and filename injectivity -/

theorem digitChar_isDigit : ∀ d : Nat, (digitChar d).isDigit = true
  | 0 | 1 | 2 | 3 | 4 | 5 | 6 | 7 | 8 => by decide
  | n + 9 => by
    show ('9').isDigit = true
    decide

theorem digitChar_val : ∀ d : Nat, d < 10 → (digitChar d).toNat - 48 = d
  | 0, _ | 1, _ | 2, _ | 3, _ | 4, _ | 5, _ | 6, _ | 7, _ | 8, _ => by decide
  | n + 9, h => by
    have hn : n = 0 := by omega
    subst hn
    decide

theorem digitsToNat_append_one (l : List Char) (c : Char) :
    digitsToNat (l ++ [c]) = digitsToNat l * 10 + (c.toNat - 48) := by
  simp [digitsToNat, List.foldl_append]

theorem natToDigitsAux_roundtrip : ∀ fuel n : Nat, n < fuel →
    digitsToNat (natToDigitsAux fuel n) = n := by
  intro fuel
  induction fuel with
  | zero =>
    intro n h
    omega
  | succ fuel ih =>
    intro n h
    rw [natToDigitsAux]
    split
    · rename_i hlt
      simp only [digitsToNat, List.foldl_cons, List.foldl_nil, Nat.zero_mul, Nat.zero_add]
      exact digitChar_val n hlt
    · rename_i hge
      push_neg at hge
      have hdiv : n / 10 < fuel := by
        have := Nat.div_lt_self (show 0 < n by omega) (show 1 < 10 by omega)
        omega
      rw [digitsToNat_append_one, ih (n / 10) hdiv,
        digitChar_val (n % 10) (Nat.mod_lt _ (by omega))]
      omega

theorem natToDigits_roundtrip (n : Nat) : digitsToNat (natToDigits n) = n :=
  natToDigitsAux_roundtrip (n + 1) n (by omega)

theorem natToDigits_inj (a b : Nat) (h : natToDigits a = natToDigits b) : a = b := by
  have hc := congrArg digitsToNat h
  rwa [natToDigits_roundtrip, natToDigits_roundtrip] at hc

theorem natToDigitsAux_digits : ∀ fuel n : Nat, ∀ c ∈ natToDigitsAux fuel n,
    c.isDigit = true := by
  intro fuel
  induction fuel with
  | zero =>
    intro n c hc
    simp [natToDigitsAux] at hc
  | succ fuel ih =>
    intro n c hc
    rw [natToDigitsAux] at hc
    split at hc
    · simp only [List.mem_singleton] at hc
      subst hc
      exact digitChar_isDigit n
    · rw [List.mem_append] at hc
      rcases hc with hc | hc
      · exact ih _ c hc
      · simp only [List.mem_singleton] at hc
        subst hc
        exact digitChar_isDigit _

theorem natToDigits_digits (n : Nat) : ∀ c ∈ natToDigits n, c.isDigit = true :=
  natToDigitsAux_digits (n + 1) n

theorem digit_sep_inj : ∀ d1 d2 r1 r2 : List Char,
    (∀ c ∈ d1, c.isDigit = true) → (∀ c ∈ d2, c.isDigit = true) →
    d1 ++ '_' :: r1 = d2 ++ '_' :: r2 → d1 = d2 ∧ r1 = r2 := by
  intro d1
  induction d1 with
  | nil =>
    intro d2 r1 r2 _ h2 he
    cases d2 with
    | nil =>
      simp only [List.nil_append, List.cons.injEq, true_and] at he
      exact ⟨rfl, he⟩
    | cons c cs =>
      simp only [List.nil_append, List.cons_append, List.cons.injEq] at he
      have hd := h2 c (by simp)
      rw [← he.1] at hd
      simp at hd
  | cons a as ih =>
    intro d2 r1 r2 h1 h2 he
    cases d2 with
    | nil =>
      simp only [List.cons_append, List.nil_append, List.cons.injEq] at he
      have hd := h1 a (by simp)
      rw [he.1] at hd
      simp at hd
    | cons c cs =>
      simp only [List.cons_append, List.cons.injEq] at he
      obtain ⟨hac, htail⟩ := he
      subst hac
      obtain ⟨hd, hr⟩ := ih cs r1 r2 (fun x hx => h1 x (by simp [hx]))
        (fun x hx => h2 x (by simp [hx])) htail
      exact ⟨by rw [hd], hr⟩

theorem strData_append (a b : String) : (a ++ b).data = a.data ++ b.data := by
  cases a
  cases b
  rfl

theorem pageFilename_data (n : String) (p : Nat) :
    (pageFilename n p).data
    = (if n.data ≠ [] then n.data ++ ('_' :: 'p' :: 'a' :: 'g' :: 'e' :: '_' :: [])
        else ('p' :: 'a' :: 'g' :: 'e' :: '_' :: []))
      ++ natToDigits p ++ ('.' :: 'j' :: 's' :: 'o' :: 'n' :: []) := by
  unfold pageFilename
  by_cases hn : n = ""
  · subst hn
    rw [if_neg (by simp), if_neg (by simp)]
    simp only [strData_append]
    rfl
  · have hd : n.data ≠ [] := by
      intro h0
      exact hn (String.ext h0)
    rw [if_pos hn, if_pos hd]
    simp only [strData_append, List.append_assoc]
    rfl

theorem pageFilename_inj (n1 n2 : String) (p1 p2 : Nat)
    (h : pageFilename n1 p1 = pageFilename n2 p2) : n1 = n2 ∧ p1 = p2 := by
  have hd := congrArg String.data h
  rw [pageFilename_data, pageFilename_data] at hd
  have hd2 := List.append_cancel_right hd
  have hrev := congrArg List.reverse hd2
  rw [List.reverse_append, List.reverse_append] at hrev
  have hdig1 : ∀ c ∈ (natToDigits p1).reverse, c.isDigit = true := by
    intro c hc
    exact natToDigits_digits p1 c (List.mem_reverse.mp hc)
  have hdig2 : ∀ c ∈ (natToDigits p2).reverse, c.isDigit = true := by
    intro c hc
    exact natToDigits_digits p2 c (List.mem_reverse.mp hc)
  by_cases h1 : n1.data = []
  · by_cases h2 : n2.data = []
    · rw [if_neg (by simp [h1]), if_neg (by simp [h2])] at hrev
      have hrev' : (natToDigits p1).reverse ++ '_' :: ('e' :: 'g' :: 'a' :: 'p' :: [])
          = (natToDigits p2).reverse ++ '_' :: ('e' :: 'g' :: 'a' :: 'p' :: []) := by
        simpa using hrev
      obtain ⟨hdeq, -⟩ := digit_sep_inj _ _ _ _ hdig1 hdig2 hrev'
      refine ⟨?_, natToDigits_inj p1 p2 (List.reverse_injective hdeq)⟩
      have he1 : n1 = "" := String.ext (by simp [h1])
      have he2 : n2 = "" := String.ext (by simp [h2])
      rw [he1, he2]
    · rw [if_neg (by simp [h1]), if_pos (by simp [h2])] at hrev
      have hrev' : (natToDigits p1).reverse ++ '_' :: ('e' :: 'g' :: 'a' :: 'p' :: [])
          = (natToDigits p2).reverse
            ++ '_' :: ('e' :: 'g' :: 'a' :: 'p' :: ('_' :: n2.data.reverse)) := by
        simpa using hrev
      obtain ⟨-, htail⟩ := digit_sep_inj _ _ _ _ hdig1 hdig2 hrev'
      simp at htail
  · by_cases h2 : n2.data = []
    · rw [if_pos (by simp [h1]), if_neg (by simp [h2])] at hrev
      have hrev' : (natToDigits p1).reverse
            ++ '_' :: ('e' :: 'g' :: 'a' :: 'p' :: ('_' :: n1.data.reverse))
          = (natToDigits p2).reverse ++ '_' :: ('e' :: 'g' :: 'a' :: 'p' :: []) := by
        simpa using hrev
      obtain ⟨-, htail⟩ := digit_sep_inj _ _ _ _ hdig1 hdig2 hrev'
      simp at htail
    · rw [if_pos (by simp [h1]), if_pos (by simp [h2])] at hrev
      have hrev' : (natToDigits p1).reverse
            ++ '_' :: ('e' :: 'g' :: 'a' :: 'p' :: ('_' :: n1.data.reverse))
          = (natToDigits p2).reverse
            ++ '_' :: ('e' :: 'g' :: 'a' :: 'p' :: ('_' :: n2.data.reverse)) := by
        simpa using hrev
      obtain ⟨hdeq, htail⟩ := digit_sep_inj _ _ _ _ hdig1 hdig2 hrev'
      simp only [List.cons.injEq, true_and] at htail
      refine ⟨?_, natToDigits_inj p1 p2 (List.reverse_injective hdeq)⟩
      exact String.ext (List.reverse_injective htail)

/-! ### C3, C5, C9, C10 -/

/-- Every completed run's writes are the page files followed by the one
manifest write. -/
theorem handler_completed_shape (req : Req) (env : Nat → Nat) (wok : Nat → Bool)
    (rs : List FetchResp) (t0 : Int) (m : Meta) (ht0 : 1 ≤ t0)
    (hm : (handler req env wok rs t0).resp = some (.okRun m)) :
    ∃ (k : Nat) (f : Nat → List Activity),
      m.fetched_pages = (k : ℚ) ∧
      (handler req env wok rs t0).writes = pageList (cfgOf req) k f ++ [.metaWrite m] := by
  by_cases ht : getBearerToken req.authHeader req.envToken = ""
  · rw [handler_badToken env wok req rs t0 ht] at hm
    cases hm
  · cases hv : validateFields req.rpm req.perPage req.startPage req.maxPages with
    | some msg =>
      rw [handler_badFields env wok req rs t0 msg ht hv] at hm
      cases hm
    | none =>
      rw [handler_loop env wok req rs t0 ht hv] at hm ⊢
      exact (runLoop_resOK (cfgOf req) env wok (minIntervalMs req.rpm) rs
        (initSt req.startPage t0)
        (pacerInv_init (minIntervalMs req.rpm) req.startPage t0 ht0)
        (writesInv_init (cfgOf req) t0)).2.1 m hm

theorem pageFilePath_inj (n1 n2 : String) (p1 p2 : Nat)
    (h : pageFilePath n1 p1 = pageFilePath n2 p2) : n1 = n2 ∧ p1 = p2 := by
  unfold pageFilePath at h
  have hd := congrArg String.data h
  rw [strData_append, strData_append, strData_append, strData_append] at hd
  rw [List.append_assoc, List.append_assoc] at hd
  have hd2 := List.append_cancel_left hd
  have hd3 := List.append_cancel_left hd2
  exact pageFilename_inj n1 n2 p1 p2 (String.ext hd3)

/-- C3 (amended): distinct `(namePrefix, pageNumber)` pairs always map to
distinct page-file paths — so two runs with distinct prefixes never collide
on page files — but the run directory is the shared constant
`data-scripting/strava` and the manifest path `meta.json` inside it does not
depend on the prefix at all: every completed run writes its manifest to the
very same location, one run overwriting another's. -/
theorem c3_artifact_paths :
    (∀ (n1 n2 : String) (p1 p2 : Nat),
      pageFilePath n1 p1 = pageFilePath n2 p2 → n1 = n2 ∧ p1 = p2) ∧
    (∀ m : Meta, evPath (.metaWrite m) = some metaFilePath) ∧
    (∀ (req1 req2 : Req) (env1 env2 : Nat → Nat) (wok1 wok2 : Nat → Bool)
        (rs1 rs2 : List FetchResp) (t1 t2 : Int) (m1 m2 : Meta),
      1 ≤ t1 → 1 ≤ t2 →
      (handler req1 env1 wok1 rs1 t1).resp = some (.okRun m1) →
      (handler req2 env2 wok2 rs2 t2).resp = some (.okRun m2) →
      ∃ pre1 pre2,
        (handler req1 env1 wok1 rs1 t1).writes = pre1 ++ [.metaWrite m1] ∧
        (handler req2 env2 wok2 rs2 t2).writes = pre2 ++ [.metaWrite m2] ∧
        evPath (.metaWrite m1) = evPath (.metaWrite m2)) := by
  refine ⟨pageFilePath_inj, fun m => rfl, ?_⟩
  intro req1 req2 env1 env2 wok1 wok2 rs1 rs2 t1 t2 m1 m2 ht1 ht2 hm1 hm2
  obtain ⟨k1, f1, -, hw1⟩ := handler_completed_shape req1 env1 wok1 rs1 t1 m1 ht1 hm1
  obtain ⟨k2, f2, -, hw2⟩ := handler_completed_shape req2 env2 wok2 rs2 t2 m2 ht2 hm2
  exact ⟨_, _, hw1, hw2, rfl⟩

/-- The `maxPages` guard never fires before the first page of a validated
request (validation forces `maxPages ≥ 0`). -/
theorem initSt_guard (req : Req) (t0 : Int)
    (hv : validateFields req.rpm req.perPage req.startPage req.maxPages = none) :
    ¬((cfgOf req).maxPages ≠ 0 ∧
      (cfgOf req).maxPages ≤ (initSt req.startPage t0).fetched) := by
  obtain ⟨-, -, -, -, hmp⟩ := (validateFields_none_iff _ _ _ _).mp hv
  rintro ⟨hne0, hle⟩
  simp only [cfgOf_maxPages, initSt] at hne0 hle
  exact hne0 (le_antisymm hle hmp)

/-- C5 (amended): a failed page write (or manifest write) throws, is caught,
and aborts the run at once — nothing is persisted, nothing is retried, and
any remaining upstream responses are never consumed.  It surfaces as the
generic 500 Internal-server-error response of the error middleware, which
differs from the 502/401 responses used for upstream HTTP errors, but is
byte-identical to the response produced when the remote request itself
fails at the network level — so the caller cannot distinguish a local-disk
failure from a remote transport failure. -/
theorem c5_storage_failure (req : Req) (env : Nat → Nat)
    (recs : List Activity) (rest : List FetchResp) (t0 : Int)
    (ht : ¬ getBearerToken req.authHeader req.envToken = "")
    (hv : validateFields req.rpm req.perPage req.startPage req.maxPages = none)
    (hrecs : recs ≠ []) :
    (handler req env wokF (FetchResp.ok 200 none (.jarr recs) :: rest) t0).resp
      = some .internalError ∧
    (handler req env wokF (FetchResp.ok 200 none (.jarr recs) :: rest) t0).writes = [] ∧
    handler req env wokF (FetchResp.ok 200 none (.jarr recs) :: rest) t0
      = handler req env wokF [FetchResp.ok 200 none (.jarr recs)] t0 ∧
    (handler req env wokF [FetchResp.ok 200 none (.jarr [])] t0).resp
      = some .internalError ∧
    (handler req env wokF [FetchResp.ok 200 none (.jarr [])] t0).writes = [] ∧
    (∀ e d, (Resp.internalError : Resp) ≠ .upstreamError e d) ∧
    (Resp.internalError : Resp) ≠ .authError ∧
    (handler req env wokF (FetchResp.ok 200 none (.jarr recs) :: rest) t0).resp
      = (handler req env wokT [FetchResp.netErr] t0).resp := by
  have hguard := initSt_guard req t0 hv
  have hfail := runLoop_pageFail (cfgOf req) env wokF (minIntervalMs req.rpm) 200 none recs
    rest (initSt req.startPage t0) hguard (by omega) hrecs rfl
  have hfail1 := runLoop_pageFail (cfgOf req) env wokF (minIntervalMs req.rpm) 200 none recs
    [] (initSt req.startPage t0) hguard (by omega) hrecs rfl
  refine ⟨?_, ?_, ?_, ?_, ?_, ?_, ?_, ?_⟩
  · rw [handler_loop env wokF req _ t0 ht hv, hfail]
    rfl
  · rw [handler_loop env wokF req _ t0 ht hv, hfail]
    rfl
  · rw [handler_loop env wokF req _ t0 ht hv, handler_loop env wokF req _ t0 ht hv,
      hfail, hfail1]
  · rw [handler_loop env wokF req _ t0 ht hv,
      runLoop_emptyPage (cfgOf req) env wokF (minIntervalMs req.rpm) 200 none []
        (initSt req.startPage t0) hguard (by omega),
      finishRun_fail (cfgOf req) env wokF _ rfl]
    rfl
  · rw [handler_loop env wokF req _ t0 ht hv,
      runLoop_emptyPage (cfgOf req) env wokF (minIntervalMs req.rpm) 200 none []
        (initSt req.startPage t0) hguard (by omega),
      finishRun_fail (cfgOf req) env wokF _ rfl]
    rfl
  · intro e d he
    cases he
  · intro he
    cases he
  · rw [handler_loop env wokF req _ t0 ht hv, hfail,
      handler_loop env wokT req _ t0 ht hv,
      runLoop_netErr (cfgOf req) env wokT (minIntervalMs req.rpm) [] (initSt req.startPage t0)
        hguard]

/-- C9 (amended): validation accepts a request iff `rpm ≥ 1` (not merely
positive), `per_page ∈ [1, 200]`, `start_page ≥ 1` and `max_pages ≥ 0`;
`per_page = 200` is accepted while `per_page = 201` is rejected with the
field-specific message; a validation failure yields the field's 400 response
before the loop does anything; and `max_pages = 0` means unbounded — the run
keeps fetching pages until end-of-data or a fatal outcome. -/
theorem c9_validation :
    (∀ rpm perPage startPage maxPages : ℚ,
      validateFields rpm perPage startPage maxPages = none ↔
      (1 ≤ rpm ∧ 1 ≤ perPage ∧ perPage ≤ 200 ∧ 1 ≤ startPage ∧ 0 ≤ maxPages)) ∧
    validateFields 15 201 1 0 = some perPageMsg ∧
    validateFields 15 200 1 0 = none ∧
    (∀ (req : Req) (env : Nat → Nat) (wok : Nat → Bool) (rs : List FetchResp)
        (t0 : Int) (msg : String),
      ¬ getBearerToken req.authHeader req.envToken = "" →
      validateFields req.rpm req.perPage req.startPage req.maxPages = some msg →
      handler req env wok rs t0 = emptyResult (.badRequest msg)) ∧
    (∀ (req : Req) (env : Nat → Nat) (wok : Nat → Bool) (k : Nat)
        (l : List Activity) (t0 : Int),
      ¬ getBearerToken req.authHeader req.envToken = "" →
      validateFields req.rpm req.perPage req.startPage req.maxPages = none →
      req.maxPages = 0 → l ≠ [] → (∀ i, wok i = true) →
      (handler req env wok (List.replicate k (.ok 200 none (.jarr l))) t0).resp = none ∧
      (handler req env wok (List.replicate k (.ok 200 none (.jarr l))) t0).writes.length
        = k) := by
  refine ⟨validateFields_none_iff, by decide, by decide, ?_, ?_⟩
  · intro req env wok rs t0 msg ht hv
    exact handler_badFields env wok req rs t0 msg ht hv
  · intro req env wok k l t0 ht hv hmax hl hwok
    have hmax' : (cfgOf req).maxPages = 0 := hmax
    obtain ⟨st', he, h1, h2, h3⟩ :=
      runLoop_consumeSuccs (cfgOf req) env wok (minIntervalMs req.rpm) hmax' hwok
        (List.replicate k l) (initSt req.startPage t0)
        (fun x hx => by
          rw [List.eq_of_mem_replicate hx]
          exact hl)
    have h0 := he []
    rw [List.append_nil, List.map_replicate] at h0
    have hguard' : ¬((cfgOf req).maxPages ≠ 0 ∧ (cfgOf req).maxPages ≤ st'.fetched) := by
      simp [hmax']
    rw [handler_loop env wok req _ t0 ht hv, h0,
      runLoop_nil (cfgOf req) env wok (minIntervalMs req.rpm) st' hguard']
    refine ⟨rfl, ?_⟩
    simp only [mkRes_writes, paced_writes, h3]
    simp [initSt]

/-- C10: bearer-token resolution.  A truthy Authorization header matching
`Bearer <token>` wins and the environment value is ignored; otherwise the
environment's `STRAVA_ACCESS_TOKEN` is used; both sources pass through
`trim`; and a run whose resolved token is empty is answered with the 400
missing-token response before any request is sent or any file written. -/
theorem c10_token_resolution :
    (∀ h e1 e2 : String, h ≠ "" → bearerTest h.data = true →
      getBearerToken (some h) e1 = trimStr ⟨stripBearer h.data⟩ ∧
      getBearerToken (some h) e1 = getBearerToken (some h) e2) ∧
    (∀ h e : String, ¬(h ≠ "" ∧ bearerTest h.data = true) →
      getBearerToken (some h) e = trimStr e) ∧
    (∀ e : String, getBearerToken none e = trimStr e) ∧
    (∀ (req : Req) (env : Nat → Nat) (wok : Nat → Bool) (rs : List FetchResp) (t0 : Int),
      getBearerToken req.authHeader req.envToken = "" →
      handler req env wok rs t0 = emptyResult (.badRequest missingTokenMsg)) := by
  refine ⟨?_, ?_, fun e => rfl, ?_⟩
  · intro h e1 e2 hne hb
    constructor
    · simp only [getBearerToken]
      rw [if_pos ⟨hne, hb⟩]
    · simp only [getBearerToken]
      rw [if_pos ⟨hne, hb⟩, if_pos ⟨hne, hb⟩]
  · intro h e hc
    simp only [getBearerToken]
    rw [if_neg hc]
  · intro req env wok rs t0 ht
    exact handler_badToken env wok req rs t0 ht

/-! ### Concrete witnesses and counterexamples

The Batteries rational-arithmetic functions are `@[irreducible]`; inside this
section they are made semireducible so that concrete runs of the embedded
handler evaluate under `decide`. -/

section EvalWitnesses

attribute [local semireducible] Rat.mul Rat.inv Rat.add Rat.sub

/-- Witness for C1 at a concrete input: prefix "a", one non-empty page then
the end-of-data page. -/
theorem c1_witness :
    ∃ k : Nat,
      (Meta.mk (some "a") 200 1 1 4001).fetched_pages = (k : ℚ) ∧
      pagesOf (handler reqA envZ wokT
          [.ok 200 none (.jarr ["x"]), .ok 200 none (.jarr [])] 1).writes
        = (List.range k).map (fun (i : Nat) => reqA.startPage + (i : ℚ)) ∧
      (pagesOf (handler reqA envZ wokT
          [.ok 200 none (.jarr ["x"]), .ok 200 none (.jarr [])] 1).writes).Nodup ∧
      ∃ pre, (handler reqA envZ wokT
          [.ok 200 none (.jarr ["x"]), .ok 200 none (.jarr [])] 1).writes
          = pre ++ [.metaWrite (Meta.mk (some "a") 200 1 1 4001)] ∧
        ∀ ev ∈ pre, ∃ name p recs, ev = WriteEv.pageWrite name p recs :=
  c1_completed_contiguous reqA envZ wokT
    [.ok 200 none (.jarr ["x"]), .ok 200 none (.jarr [])] 1
    (Meta.mk (some "a") 200 1 1 4001) (by decide) (by decide)


/-- Witness for C2 at a concrete input: a throttled first page then two
ordinary pages, so several gaps are actually checked. -/
theorem c2_witness :
    gapsOK (minIntervalMs reqA.rpm)
      (handler reqA envZ wokT
        [.ok 429 (some "5") (.jarr []), .ok 200 none (.jarr ["x"]),
         .ok 200 none (.jarr [])] 1).sends ∧
    ((handler reqA envZ wokT
        [.ok 429 (some "5") (.jarr []), .ok 200 none (.jarr ["x"]),
         .ok 200 none (.jarr [])] 1).waits = [] ∨
      ∃ t, (handler reqA envZ wokT
        [.ok 429 (some "5") (.jarr []), .ok 200 none (.jarr ["x"]),
         .ok 200 none (.jarr [])] 1).waits = 0 :: t) ∧
    minIntervalMs reqA.rpm = ⌈(60000 : ℚ) / reqA.rpm⌉ :=
  c2_pacer reqA envZ wokT
    [.ok 429 (some "5") (.jarr []), .ok 200 none (.jarr ["x"]),
     .ok 200 none (.jarr [])] 1 (by decide)


/-- Counterexample for C3: two runs with the distinct prefixes "a" and "b"
both write their manifest to the same shared location
`data-scripting/strava/meta.json`. -/
theorem c3_counterexample :
    ("a" : String) ≠ "b" ∧
    ((handler reqA envZ wokT
        [.ok 200 none (.jarr ["x"]), .ok 200 none (.jarr [])] 1).writes.getLast?.map evPath
      = some (some "data-scripting/strava/meta.json")) ∧
    ((handler reqB envZ wokT
        [.ok 200 none (.jarr ["x"]), .ok 200 none (.jarr [])] 1).writes.getLast?.map evPath
      = some (some "data-scripting/strava/meta.json")) := by
  decide

/-- Witness for C3 at concrete completed runs with prefixes "a" and "b". -/
theorem c3_witness :
    ∃ pre1 pre2,
      (handler reqA envZ wokT
        [.ok 200 none (.jarr ["x"]), .ok 200 none (.jarr [])] 1).writes
        = pre1 ++ [.metaWrite (Meta.mk (some "a") 200 1 1 4001)] ∧
      (handler reqB envZ wokT
        [.ok 200 none (.jarr ["x"]), .ok 200 none (.jarr [])] 1).writes
        = pre2 ++ [.metaWrite (Meta.mk (some "b") 200 1 1 4001)] ∧
      evPath (.metaWrite (Meta.mk (some "a") 200 1 1 4001))
        = evPath (.metaWrite (Meta.mk (some "b") 200 1 1 4001)) :=
  c3_artifact_paths.2.2 reqA reqB envZ envZ wokT wokT
    [.ok 200 none (.jarr ["x"]), .ok 200 none (.jarr [])]
    [.ok 200 none (.jarr ["x"]), .ok 200 none (.jarr [])] 1 1
    (Meta.mk (some "a") 200 1 1 4001) (Meta.mk (some "b") 200 1 1 4001)
    (by decide) (by decide) (by decide) (by decide)

/-- Witness for C4: two 429 responses with `retry-after: 5`, then success. -/
theorem c4_witness :
    backoffMs (some "5") = digitsToNat "5".data * 1000 ∧
    backoffMs none = 10000 ∧
    backoffMs (some "5.5") = 10000 ∧
    (handler reqA envZ wokT (List.replicate 2 (.ok 429 (some "5") (.jarr []))) 1).resp
      = none ∧
    (handler reqA envZ wokT (List.replicate 2 (.ok 429 (some "5") (.jarr []))) 1).writes
      = [] ∧
    (handler reqA envZ wokT (List.replicate 2 (.ok 429 (some "5") (.jarr []))) 1).requests
      = List.replicate 3 reqA.startPage ∧
    (handler reqA envZ wokT
      (List.replicate 2 (.ok 429 (some "5") (.jarr []))) 1).sends.length = 3 ∧
    ∃ m : Meta,
      (handler reqOne envZ wokT
        (List.replicate 2 (.ok 429 (some "5") (.jarr []))
          ++ [.ok 200 none (.jarr ["x"])]) 1).resp = some (.okRun m) ∧
      m.fetched_pages = 1 := by
  obtain ⟨b1, b2, b3, b4, -⟩ :=
    c4_throttle_backoff reqA envZ wokT (some "5") (.jarr []) 2 1 (by decide) (by decide)
  obtain ⟨h4a, h4b, h4c, h4d⟩ := b4 (Or.inl (by decide))
  obtain ⟨-, -, -, -, b5⟩ :=
    c4_throttle_backoff reqOne envZ wokT (some "5") (.jarr []) 2 1 (by decide) (by decide)
  exact ⟨b1 "5" (by decide) (by decide), b2, b3 "5.5" (by decide),
    h4a, h4b, h4c, h4d, b5 (by decide) ["x"] (by decide) (fun i => rfl)⟩

/-- Counterexample for C5: the response to a failed local page write equals
the response to a remote network failure — both are the generic 500 — so the
caller cannot tell a disk failure from a remote failure. -/
theorem c5_counterexample :
    (handler reqA envZ wokF [.ok 200 none (.jarr ["x"])] 1).resp
      = some Resp.internalError ∧
    (handler reqA envZ wokT [.netErr] 1).resp = some Resp.internalError ∧
    (handler reqA envZ wokF [.ok 200 none (.jarr ["x"])] 1).resp
      = (handler reqA envZ wokT [.netErr] 1).resp := by
  decide

/-- Witness for C5 at a concrete run: first page write fails. -/
theorem c5_witness :
    (handler reqA envZ wokF (FetchResp.ok 200 none (.jarr ["x"]) :: [.netErr]) 1).resp
      = some .internalError ∧
    (handler reqA envZ wokF (FetchResp.ok 200 none (.jarr ["x"]) :: [.netErr]) 1).writes
      = [] ∧
    handler reqA envZ wokF (FetchResp.ok 200 none (.jarr ["x"]) :: [.netErr]) 1
      = handler reqA envZ wokF [FetchResp.ok 200 none (.jarr ["x"])] 1 ∧
    (handler reqA envZ wokF [FetchResp.ok 200 none (.jarr [])] 1).resp
      = some .internalError ∧
    (handler reqA envZ wokF [FetchResp.ok 200 none (.jarr [])] 1).writes = [] ∧
    (∀ e d, (Resp.internalError : Resp) ≠ .upstreamError e d) ∧
    (Resp.internalError : Resp) ≠ .authError ∧
    (handler reqA envZ wokF (FetchResp.ok 200 none (.jarr ["x"]) :: [.netErr]) 1).resp
      = (handler reqA envZ wokT [FetchResp.netErr] 1).resp :=
  c5_storage_failure reqA envZ ["x"] [.netErr] 1 (by decide) (by decide) (by decide)

/-- Witness for C6: pages 1 and 2 succeed non-empty, page 3 is empty — the
run completes with `fetched_pages = 2` and the manifest last. -/
theorem c6_witness :
    ∃ (m : Meta) (f : Nat → List Activity),
      (handler reqA envZ wokT
        ([["r1"], ["r2"]].map (fun l => FetchResp.ok 200 none (.jarr l))
          ++ [.ok 200 none (.jarr [])]) 1).resp = some (.okRun m) ∧
      m.fetched_pages = (([["r1"], ["r2"]] : List (List Activity)).length : ℚ) ∧
      (handler reqA envZ wokT
        ([["r1"], ["r2"]].map (fun l => FetchResp.ok 200 none (.jarr l))
          ++ [.ok 200 none (.jarr [])]) 1).writes
        = pageList (cfgOf reqA) ([["r1"], ["r2"]] : List (List Activity)).length f
          ++ [.metaWrite m] :=
  c6_empty_page_completes reqA envZ wokT [["r1"], ["r2"]] 1 (by decide) (by decide)
    (by decide) (by decide) (fun i => rfl) (by decide)

/-- Witness for C7: an Unauthorized outcome on the very first request —
zero pages persisted, no manifest, responses after it never consumed. -/
theorem c7_witness :
    (handler reqA envZ wokT (FetchResp.ok 401 none (.jarr []) :: [.netErr]) 1).resp
      = some .authError ∧
    pagesOf (handler reqA envZ wokT
      (FetchResp.ok 401 none (.jarr []) :: [.netErr]) 1).writes
      = (List.range 0).map (fun (i : Nat) => reqA.startPage + (i : ℚ)) ∧
    ¬ hasMeta (handler reqA envZ wokT
      (FetchResp.ok 401 none (.jarr []) :: [.netErr]) 1).writes ∧
    handler reqA envZ wokT (FetchResp.ok 401 none (.jarr []) :: [.netErr]) 1
      = handler reqA envZ wokT [FetchResp.ok 401 none (.jarr [])] 1 :=
  c7_unauthorized_aborts reqA envZ wokT [] none (.jarr []) [.netErr] 1 (by decide)
    (by decide) (by decide) (by decide) (fun i => rfl) (by decide)

/-- Witness for C8: a 500 from upstream, and separately a 200 with a
non-array body, each abort at once with the 502 responses of the source. -/
theorem c8_witness :
    ((handler reqA envZ wokT (FetchResp.ok 500 none (.jarr []) :: [.netErr]) 1).resp
        = some (.upstreamError (statusErrString 500) (.jarr [])) ∧
      ¬ hasMeta (handler reqA envZ wokT
        (FetchResp.ok 500 none (.jarr []) :: [.netErr]) 1).writes ∧
      handler reqA envZ wokT (FetchResp.ok 500 none (.jarr []) :: [.netErr]) 1
        = handler reqA envZ wokT [FetchResp.ok 500 none (.jarr [])] 1) ∧
    ((handler reqA envZ wokT
        (FetchResp.ok 200 none (.notArray "oops") :: [.netErr]) 1).resp
        = some (.upstreamError unexpectedBodyMsg (.notArray "oops")) ∧
      ¬ hasMeta (handler reqA envZ wokT
        (FetchResp.ok 200 none (.notArray "oops") :: [.netErr]) 1).writes ∧
      handler reqA envZ wokT (FetchResp.ok 200 none (.notArray "oops") :: [.netErr]) 1
        = handler reqA envZ wokT [FetchResp.ok 200 none (.notArray "oops")] 1) :=
  ⟨(c8_protocol_aborts reqA envZ wokT [] none (.jarr []) "oops" [.netErr] 1 500
      (by decide) (by decide) (by decide) (by decide) (fun i => rfl) (by decide)).1
      (by omega) (by omega) (by omega),
    (c8_protocol_aborts reqA envZ wokT [] none (.jarr []) "oops" [.netErr] 1 200
      (by decide) (by decide) (by decide) (by decide) (fun i => rfl) (by decide)).2
      (by omega) (by omega)⟩

/-- Counterexample for C9: `rpm = 1/2` is a positive number and all other
fields are within the claimed bounds, yet the request is rejected. -/
theorem c9_counterexample :
    (0 < reqHalf.rpm ∧ 1 ≤ reqHalf.perPage ∧ reqHalf.perPage ≤ 200 ∧
      1 ≤ reqHalf.startPage ∧ 0 ≤ reqHalf.maxPages) ∧
    validateFields reqHalf.rpm reqHalf.perPage reqHalf.startPage reqHalf.maxPages
      = some rpmMsg ∧
    handler reqHalf envZ wokT [] 1 = emptyResult (.badRequest rpmMsg) := by
  decide

/-- Witness for C9 at concrete inputs: the boundary values 200/201, a
fractional rpm rejected before the loop, and `max_pages = 0` running through
three pages without stopping. -/
theorem c9_witness :
    validateFields 15 201 1 0 = some perPageMsg ∧
    validateFields 15 200 1 0 = none ∧
    handler reqHalf envZ wokT [] 1 = emptyResult (.badRequest rpmMsg) ∧
    (handler reqA envZ wokT (List.replicate 3 (.ok 200 none (.jarr ["x"]))) 1).resp
      = none ∧
    (handler reqA envZ wokT
      (List.replicate 3 (.ok 200 none (.jarr ["x"]))) 1).writes.length = 3 :=
  ⟨c9_validation.2.1, c9_validation.2.2.1,
    c9_validation.2.2.2.1 reqHalf envZ wokT [] 1 rpmMsg (by decide) (by decide),
    (c9_validation.2.2.2.2 reqA envZ wokT 3 ["x"] 1 (by decide) (by decide) (by decide)
      (by decide) (fun i => rfl)).1,
    (c9_validation.2.2.2.2 reqA envZ wokT 3 ["x"] 1 (by decide) (by decide) (by decide)
      (by decide) (fun i => rfl)).2⟩

/-- Witness for C10 at concrete inputs: a matching header beats the
environment and is trimmed; a non-Bearer header falls back to the trimmed
environment value; an empty resolved token is answered 400 with no work. -/
theorem c10_witness :
    (getBearerToken (some "Bearer  tok ") "ENV" = trimStr ⟨stripBearer "Bearer  tok ".data⟩ ∧
      getBearerToken (some "Bearer  tok ") "ENV" = getBearerToken (some "Bearer  tok ") "OTHER") ∧
    getBearerToken (some "Basic xyz") " env " = trimStr " env " ∧
    getBearerToken none " env " = trimStr " env " ∧
    handler reqNoTok envZ wokT [] 1 = emptyResult (.badRequest missingTokenMsg) :=
  ⟨c10_token_resolution.1 "Bearer  tok " "ENV" "OTHER" (by decide) (by decide),
    c10_token_resolution.2.1 "Basic xyz" " env " (by decide),
    c10_token_resolution.2.2.1 " env ",
    c10_token_resolution.2.2.2 reqNoTok envZ wokT [] 1 (by decide)⟩

end EvalWitnesses

end Runlytics
